import Mathlib

/-!
Shallow embedding of the Smart Parking Allocation core
(`src/lib/parking-system/parking-system.ts` together with its type
declarations).  JavaScript `Map`s are modelled as association lists in
insertion order (`Map` iteration order); the doubly linked operation
history is modelled as a list with the most recent operation first
(`push` prepends, `pop` takes the head).  The clock and id generator,
which the spec declares to be injectable collaborators, are passed as
explicit arguments.  Mutation of a slot or request object found by
iteration is modelled as replacement of the first matching element.
-/

namespace Parking

/-- A single parking slot: stable identifier, back references to its zone
and area, and the availability flag (the only mutable field). -/
structure ParkingSlot where
  id : String
  zoneId : String
  areaId : String
  isAvailable : Bool
deriving DecidableEq

/-- A parking area: identifier, display name, owning zone id and the
ordered sequence of slots. -/
structure ParkingArea where
  id : String
  name : String
  zoneId : String
  slots : List ParkingSlot
deriving DecidableEq

/-- A zone: identifier, display name, ordered areas and the stored
adjacency list of zone ids. -/
structure Zone where
  id : String
  name : String
  areas : List ParkingArea
  adjacentZones : List String
deriving DecidableEq

/-- A vehicle record; opaque to the allocation engine. -/
structure Vehicle where
  id : String
  licensePlate : String
  preferredZoneId : String
deriving DecidableEq

/-- The request lifecycle states. -/
inductive RequestState where
  | REQUESTED
  | ALLOCATED
  | OCCUPIED
  | RELEASED
  | CANCELLED
deriving DecidableEq

/-- The transition table of the finite state machine (types.ts,
`VALID_TRANSITIONS`). -/
def VALID_TRANSITIONS : RequestState → List RequestState
  | .REQUESTED => [.ALLOCATED, .CANCELLED]
  | .ALLOCATED => [.OCCUPIED, .CANCELLED]
  | .OCCUPIED => [.RELEASED]
  | .RELEASED => []
  | .CANCELLED => []

/-- Rendering of a state name, as it appears in failure messages. -/
def RequestState.toStr : RequestState → String
  | .REQUESTED => "REQUESTED"
  | .ALLOCATED => "ALLOCATED"
  | .OCCUPIED => "OCCUPIED"
  | .RELEASED => "RELEASED"
  | .CANCELLED => "CANCELLED"

/-- A parking request record (types.ts, `ParkingRequest`). -/
structure ParkingRequest where
  id : String
  vehicleId : String
  requestedZoneId : String
  allocatedSlotId : Option String
  allocatedZoneId : Option String
  state : RequestState
  requestTime : Nat
  allocationTime : Option Nat
  occupiedTime : Option Nat
  releaseTime : Option Nat
  isCrossZone : Bool
  crossZonePenalty : Nat
deriving DecidableEq

/-- An operation record written to the rollback log on every successful
allocation (types.ts, `AllocationOperation`). -/
structure AllocationOperation where
  id : String
  requestId : String
  slotId : String
  previousSlotState : Bool
  previousRequestState : RequestState
  timestamp : Nat
deriving DecidableEq

/-- The whole in-memory system state behind the façade.  `zones`,
`vehicles` and `requests` model the `Map`s (association lists in
insertion order, unique keys maintained by the put operations);
`operationHistory` holds the rollback log most recent first;
`pendingRequests` models the request queue by id. -/
structure ParkingSystem where
  zones : List Zone
  vehicles : List Vehicle
  requests : List ParkingRequest
  operationHistory : List AllocationOperation
  pendingRequests : List String
  crossZonePenalty : Nat
deriving DecidableEq

/-- The serialised state accepted by the constructor (types.ts,
`ParkingSystemState`); `operationHistory` is listed oldest first. -/
structure ParkingSystemState where
  zones : List Zone
  vehicles : List Vehicle
  requests : List ParkingRequest
  operationHistory : List AllocationOperation
deriving DecidableEq

/-- `Map.set` on the zone map: replace the entry with the same key in
place, otherwise append. -/
def putZone : List Zone → Zone → List Zone
  | [], z => [z]
  | z' :: rest, z => if z'.id == z.id then z :: rest else z' :: putZone rest z

/-- `Map.set` on the vehicle map. -/
def putVehicle : List Vehicle → Vehicle → List Vehicle
  | [], v => [v]
  | v' :: rest, v => if v'.id == v.id then v :: rest else v' :: putVehicle rest v

/-- `Map.set` on the request map. -/
def putRequest : List ParkingRequest → ParkingRequest → List ParkingRequest
  | [], r => [r]
  | r' :: rest, r => if r'.id == r.id then r :: rest else r' :: putRequest rest r

/-- `zones.get(zoneId)`. -/
def findZone (ps : ParkingSystem) (zoneId : String) : Option Zone :=
  ps.zones.find? (fun z => z.id == zoneId)

/-- `requests.get(requestId)`. -/
def getRequest (ps : ParkingSystem) (requestId : String) : Option ParkingRequest :=
  ps.requests.find? (fun r => r.id == requestId)

/-- All slots of a zone flattened in declared iteration order (areas in
zone order, slots in area order). -/
def zoneAllSlots (z : Zone) : List ParkingSlot :=
  (z.areas.map (·.slots)).flatten

/-- All slots of the whole topology in zone-map iteration order. -/
def allSlots (ps : ParkingSystem) : List ParkingSlot :=
  (ps.zones.map zoneAllSlots).flatten

/-- `findSlot`: the first slot with the given id in iteration order
(zones, then areas, then slots), as in the nested loops of the source. -/
def findSlot (ps : ParkingSystem) (slotId : String) : Option ParkingSlot :=
  (allSlots ps).find? (fun s => s.id == slotId)

/-- `getAvailableSlotsInZone`: the available slots of the zone in declared
iteration order; an unknown zone yields the empty list. -/
def getAvailableSlotsInZone (ps : ParkingSystem) (zoneId : String) : List ParkingSlot :=
  match findZone ps zoneId with
  | none => []
  | some zone => (zone.areas.map (fun a => a.slots.filter (·.isAvailable))).flatten

/-- `getTotalSlotsInZone`: 0 for an unknown zone. -/
def getTotalSlotsInZone (ps : ParkingSystem) (zoneId : String) : Nat :=
  match findZone ps zoneId with
  | none => 0
  | some zone => (zone.areas.map (fun a => a.slots.length)).sum

/-- `canTransition` consults the transition table. -/
def canTransition (currentState : RequestState) (newState : RequestState) : Bool :=
  (VALID_TRANSITIONS currentState).contains newState

/-- Replace the first slot carrying `slotId` (mutation of the object
returned by `findSlot`); `none` when no slot matches. -/
def setSlotInSlots (slotId : String) (v : Bool) : List ParkingSlot → Option (List ParkingSlot)
  | [] => none
  | s :: rest =>
    if s.id == slotId then some ({ s with isAvailable := v } :: rest)
    else (setSlotInSlots slotId v rest).map (s :: ·)

/-- Lift `setSlotInSlots` over the areas of a zone. -/
def setSlotInAreas (slotId : String) (v : Bool) : List ParkingArea → Option (List ParkingArea)
  | [] => none
  | a :: rest =>
    match setSlotInSlots slotId v a.slots with
    | some s' => some ({ a with slots := s' } :: rest)
    | none => (setSlotInAreas slotId v rest).map (a :: ·)

/-- Lift `setSlotInSlots` over the zone map. -/
def setSlotInZones (slotId : String) (v : Bool) : List Zone → Option (List Zone)
  | [] => none
  | z :: rest =>
    match setSlotInAreas slotId v z.areas with
    | some a' => some ({ z with areas := a' } :: rest)
    | none => (setSlotInZones slotId v rest).map (z :: ·)

/-- `findSlot(...)` followed by `slotInfo.slot.isAvailable = v`; a miss
leaves the system unchanged (the `if (slotInfo)` guard). -/
def setSlotAvailability (ps : ParkingSystem) (slotId : String) (v : Bool) : ParkingSystem :=
  match setSlotInZones slotId v ps.zones with
  | some zs => { ps with zones := zs }
  | none => ps

/-- Mark the first available slot of a slot list unavailable (the
mutation `selectedSlot.isAvailable = false` where `selectedSlot` is the
head of the available list). -/
def markSlots : List ParkingSlot → Option (List ParkingSlot)
  | [] => none
  | s :: rest =>
    if s.isAvailable then some ({ s with isAvailable := false } :: rest)
    else (markSlots rest).map (s :: ·)

/-- Lift `markSlots` over areas. -/
def markAreas : List ParkingArea → Option (List ParkingArea)
  | [] => none
  | a :: rest =>
    match markSlots a.slots with
    | some s' => some ({ a with slots := s' } :: rest)
    | none => (markAreas rest).map (a :: ·)

/-- Mark the first available slot of a zone unavailable. -/
def markZoneFirstAvailable (z : Zone) : Option Zone :=
  (markAreas z.areas).map (fun a' => { z with areas := a' })

/-- Apply `markZoneFirstAvailable` to the zone carrying `zoneId`. -/
def markInZones (zoneId : String) : List Zone → List Zone
  | [] => []
  | z :: rest =>
    if z.id == zoneId then ((markZoneFirstAvailable z).getD z) :: rest
    else z :: markInZones zoneId rest

/-- The slot mutation performed by a successful allocation: the selected
slot is the first available slot of the target zone. -/
def markFirstAvailableInZone (ps : ParkingSystem) (zoneId : String) : ParkingSystem :=
  { ps with zones := markInZones zoneId ps.zones }

/-- Structured result of the mutating façade operations. -/
structure OpResult where
  success : Bool
  message : String
  request : Option ParkingRequest
deriving DecidableEq

/-- The failure message of a forbidden transition. -/
def invalidTransitionMsg (fromState : RequestState) (toState : RequestState) : String :=
  let f := fromState.toStr
  let t := toState.toStr
  s!"Invalid state transition from {f} to {t}"

/-- `createRequest`; the generated id and `Date.now()` reading are the
injected `id` and `now`. -/
def createRequest (ps : ParkingSystem) (id : String) (vehicleId : String)
    (requestedZoneId : String) (now : Nat) : ParkingRequest × ParkingSystem :=
  let request : ParkingRequest :=
    { id := id
      vehicleId := vehicleId
      requestedZoneId := requestedZoneId
      allocatedSlotId := none
      allocatedZoneId := none
      state := .REQUESTED
      requestTime := now
      allocationTime := none
      occupiedTime := none
      releaseTime := none
      isCrossZone := false
      crossZonePenalty := 0 }
  (request,
    { ps with
      requests := putRequest ps.requests request
      pendingRequests := ps.pendingRequests ++ [id] })

/-- The cross-zone fallback loop of `allocateSlot`: the first adjacent
zone (in stored order) with a non-empty available list, together with
that list. -/
def firstAdjacentWithSlot (ps : ParkingSystem) : List String → Option (String × List ParkingSlot)
  | [] => none
  | zid :: rest =>
    let avail := getAvailableSlotsInZone ps zid
    if avail.isEmpty then firstAdjacentWithSlot ps rest
    else some (zid, avail)

/-- The slot-selection phase of `allocateSlot` (lines 212-228): the
target zone, its available list and the cross-zone flag, or `none` when
nothing is available anywhere. -/
def selectTarget (ps : ParkingSystem) (request : ParkingRequest) :
    Option (String × List ParkingSlot × Bool) :=
  let sameZone := getAvailableSlotsInZone ps request.requestedZoneId
  if sameZone.isEmpty then
    match findZone ps request.requestedZoneId with
    | none => none
    | some requestedZone =>
      (firstAdjacentWithSlot ps requestedZone.adjacentZones).map (fun p => (p.1, p.2, true))
  else some (request.requestedZoneId, sameZone, false)

/-- `allocateSlot`; the generated operation id and the `Date.now()`
readings are the injected `opId` and `now`. -/
def allocateSlot (ps : ParkingSystem) (requestId : String) (opId : String) (now : Nat) :
    OpResult × ParkingSystem :=
  match getRequest ps requestId with
  | none => ({ success := false, message := "Request not found", request := none }, ps)
  | some request =>
    if canTransition request.state .ALLOCATED then
      match selectTarget ps request with
      | none =>
        ({ success := false
           message := "No available slots in requested zone or adjacent zones"
           request := none }, ps)
      | some (targetZoneId, availableSlots, isCrossZone) =>
        match availableSlots with
        | [] =>
          ({ success := false
             message := "No available slots in requested zone or adjacent zones"
             request := none }, ps)
        | selectedSlot :: _ =>
          let operation : AllocationOperation :=
            { id := opId
              requestId := request.id
              slotId := selectedSlot.id
              previousSlotState := selectedSlot.isAvailable
              previousRequestState := request.state
              timestamp := now }
          let ps1 : ParkingSystem :=
            { ps with operationHistory := operation :: ps.operationHistory }
          let ps2 := markFirstAvailableInZone ps1 targetZoneId
          let newRequest : ParkingRequest :=
            { request with
              allocatedSlotId := some selectedSlot.id
              allocatedZoneId := some selectedSlot.zoneId
              state := .ALLOCATED
              allocationTime := some now
              isCrossZone := isCrossZone
              crossZonePenalty := if isCrossZone then ps.crossZonePenalty else 0 }
          let ps3 : ParkingSystem := { ps2 with requests := putRequest ps2.requests newRequest }
          let sid := selectedSlot.id
          let pen := ps.crossZonePenalty
          ({ success := true
             message :=
               if isCrossZone then s!"Allocated to slot {sid} in adjacent zone (penalty: {pen})"
               else s!"Allocated to slot {sid}"
             request := some newRequest }, ps3)
    else
      ({ success := false
         message := invalidTransitionMsg request.state .ALLOCATED
         request := none }, ps)

/-- `occupySlot`. -/
def occupySlot (ps : ParkingSystem) (requestId : String) (now : Nat) :
    OpResult × ParkingSystem :=
  match getRequest ps requestId with
  | none => ({ success := false, message := "Request not found", request := none }, ps)
  | some request =>
    if canTransition request.state .OCCUPIED then
      let newRequest := { request with state := .OCCUPIED, occupiedTime := some now }
      ({ success := true, message := "Slot is now occupied", request := some newRequest },
        { ps with requests := putRequest ps.requests newRequest })
    else
      ({ success := false
         message := invalidTransitionMsg request.state .OCCUPIED
         request := none }, ps)

/-- `releaseSlot`. -/
def releaseSlot (ps : ParkingSystem) (requestId : String) (now : Nat) :
    OpResult × ParkingSystem :=
  match getRequest ps requestId with
  | none => ({ success := false, message := "Request not found", request := none }, ps)
  | some request =>
    if canTransition request.state .RELEASED then
      let ps1 :=
        match request.allocatedSlotId with
        | none => ps
        | some sid => setSlotAvailability ps sid true
      let newRequest := { request with state := .RELEASED, releaseTime := some now }
      ({ success := true, message := "Slot released successfully", request := some newRequest },
        { ps1 with requests := putRequest ps1.requests newRequest })
    else
      ({ success := false
         message := invalidTransitionMsg request.state .RELEASED
         request := none }, ps)

/-- `cancelRequest`. -/
def cancelRequest (ps : ParkingSystem) (requestId : String) :
    OpResult × ParkingSystem :=
  match getRequest ps requestId with
  | none => ({ success := false, message := "Request not found", request := none }, ps)
  | some request =>
    if canTransition request.state .CANCELLED then
      let ps1 :=
        match request.allocatedSlotId with
        | none => ps
        | some sid => setSlotAvailability ps sid true
      let newRequest := { request with state := .CANCELLED }
      ({ success := true, message := "Request cancelled successfully", request := some newRequest },
        { ps1 with requests := putRequest ps1.requests newRequest })
    else
      ({ success := false
         message := invalidTransitionMsg request.state .CANCELLED
         request := none }, ps)

/-- The body of one iteration of the `rollback` loop applied to a popped
operation record: restore the slot's availability and the request's
state, clearing the allocation fields when the restored state is
`REQUESTED`. -/
def undoOne (ps : ParkingSystem) (operation : AllocationOperation) : ParkingSystem :=
  let ps1 := setSlotAvailability ps operation.slotId operation.previousSlotState
  match getRequest ps1 operation.requestId with
  | none => ps1
  | some request =>
    let restored :=
      if operation.previousRequestState = .REQUESTED then
        { request with
          state := operation.previousRequestState
          allocatedSlotId := none
          allocatedZoneId := none
          allocationTime := none
          isCrossZone := false
          crossZonePenalty := 0 }
      else { request with state := operation.previousRequestState }
    { ps1 with requests := putRequest ps1.requests restored }

/-- Pop the most recent operation record and undo it; identity on an
empty log. -/
def popOne (ps : ParkingSystem) : ParkingSystem :=
  match ps.operationHistory with
  | [] => ps
  | operation :: rest => undoOne { ps with operationHistory := rest } operation

/-- Structured result of `rollback`. -/
structure RollbackResult where
  success : Bool
  message : String
  rolledBack : Nat
deriving DecidableEq

/-- The counting loop of `rollback`. -/
def rollbackAux : Nat → ParkingSystem → Nat × ParkingSystem
  | 0, ps => (0, ps)
  | Nat.succ k, ps =>
    match ps.operationHistory with
    | [] => (0, ps)
    | operation :: rest =>
      let ps1 := undoOne { ps with operationHistory := rest } operation
      let out := rollbackAux k ps1
      (out.1 + 1, out.2)

/-- `rollback(k)`: undo up to `k` operations, newest first; always
reported successful with the exact count undone. -/
def rollback (ps : ParkingSystem) (k : Nat) : RollbackResult × ParkingSystem :=
  let out := rollbackAux k ps
  let n := out.1
  ({ success := true, message := s!"Rolled back {n} operation(s)", rolledBack := n }, out.2)

/-- The `zoneUtilization` record computed inside `getAnalytics`
(lines 404-412), as exact rationals: one entry per zone of the map, in
map order. -/
def getAnalyticsZoneUtilization (ps : ParkingSystem) : List (String × ℚ) :=
  ps.zones.map (fun zone =>
    let totalSlots := getTotalSlotsInZone ps zone.id
    let availableSlots := (getAvailableSlotsInZone ps zone.id).length
    (zone.id,
      if totalSlots > 0 then
        (((totalSlots : ℚ) - (availableSlots : ℚ)) / (totalSlots : ℚ)) * 100
      else 0))

/-- A parking system with nothing loaded; the cross-zone penalty field
initialiser is 10. -/
def emptySystem : ParkingSystem :=
  { zones := []
    vehicles := []
    requests := []
    operationHistory := []
    pendingRequests := []
    crossZonePenalty := 10 }

/-- `loadState`, applied by the constructor to an initial state. -/
def loadState (ps : ParkingSystem) (st : ParkingSystemState) : ParkingSystem :=
  let ps1 := st.zones.foldl (fun a z => { a with zones := putZone a.zones z }) ps
  let ps2 := st.vehicles.foldl (fun a v => { a with vehicles := putVehicle a.vehicles v }) ps1
  let ps3 := st.requests.foldl (fun a r => { a with requests := putRequest a.requests r }) ps2
  st.operationHistory.foldl
    (fun a o => { a with operationHistory := o :: a.operationHistory }) ps3

/-- The constructor `new ParkingSystem(initialState?)`. -/
def mkParkingSystem (initialState : Option ParkingSystemState) : ParkingSystem :=
  match initialState with
  | none => emptySystem
  | some st => loadState emptySystem st

/-! ### Request-map toolkit -/

theorem putRequest_find_same (l : List ParkingRequest) (r : ParkingRequest) :
    (putRequest l r).find? (fun x => x.id == r.id) = some r := by
  induction l with
  | nil => simp [putRequest]
  | cons r' rest ih =>
    by_cases h : r'.id = r.id
    · simp [putRequest, h]
    · simp [putRequest, h, ih]

theorem putRequest_find_other (l : List ParkingRequest) (r : ParkingRequest) (rid : String)
    (h : rid ≠ r.id) :
    (putRequest l r).find? (fun x => x.id == rid) = l.find? (fun x => x.id == rid) := by
  induction l with
  | nil => simp [putRequest, show ¬ r.id = rid from fun hc => h hc.symm]
  | cons r' rest ih =>
    by_cases h1 : r'.id = r.id
    · have h2 : ¬ r.id = rid := fun hc => h hc.symm
      have h3 : ¬ r'.id = rid := by rw [h1]; exact h2
      simp [putRequest, h1, h2, h3]
    · by_cases h2 : r'.id = rid
      · simp [putRequest, h1, h2, h]
      · simp [putRequest, h1, h2, ih]

theorem putRequest_self (l : List ParkingRequest) (r : ParkingRequest)
    (h : l.find? (fun x => x.id == r.id) = some r) : putRequest l r = l := by
  induction l with
  | nil => simp at h
  | cons r' rest ih =>
    by_cases h1 : r'.id = r.id
    · have : r' = r := by simpa [List.find?_cons_of_pos, h1] using h
      simp [putRequest, h1, this]
    · have h2 : rest.find? (fun x => x.id == r.id) = some r := by
        simpa [List.find?_cons_of_neg, h1] using h
      simp [putRequest, h1, ih h2]

theorem putRequest_putRequest (l : List ParkingRequest) (r r' : ParkingRequest)
    (h : r'.id = r.id) : putRequest (putRequest l r) r' = putRequest l r' := by
  induction l with
  | nil => simp [putRequest, h.symm]
  | cons x rest ih =>
    by_cases h1 : x.id = r.id
    · simp [putRequest, h1, h.symm, h1.trans h.symm]
    · have h2 : ¬ x.id = r'.id := by rw [h]; exact h1
      simp [putRequest, h1, h2, ih]

theorem putRequest_of_not_found (l : List ParkingRequest) (r : ParkingRequest)
    (h : l.find? (fun x => x.id == r.id) = none) : putRequest l r = l ++ [r] := by
  induction l with
  | nil => simp [putRequest]
  | cons r' rest ih =>
    by_cases h1 : r'.id = r.id
    · simp [List.find?_cons_of_pos, h1] at h
    · have h2 : rest.find? (fun x => x.id == r.id) = none := by
        simpa [List.find?_cons_of_neg, h1] using h
      simp [putRequest, h1, ih h2]

theorem putRequest_map_id_of_found (l : List ParkingRequest) (r r0 : ParkingRequest)
    (h : l.find? (fun x => x.id == r.id) = some r0) :
    (putRequest l r).map (·.id) = l.map (·.id) := by
  induction l with
  | nil => simp at h
  | cons r' rest ih =>
    by_cases h1 : r'.id = r.id
    · simp [putRequest, h1]
    · have h2 : rest.find? (fun x => x.id == r.id) = some r0 := by
        simpa [List.find?_cons_of_neg, h1] using h
      simp [putRequest, h1, ih h2]

theorem mem_putRequest (l : List ParkingRequest) (r x : ParkingRequest)
    (h : x ∈ putRequest l r) : x = r ∨ x ∈ l := by
  induction l with
  | nil => simp [putRequest] at h; exact Or.inl h
  | cons r' rest ih =>
    by_cases h1 : r'.id = r.id
    · simp [putRequest, h1] at h
      rcases h with h | h
      · exact Or.inl h
      · exact Or.inr (List.mem_cons_of_mem _ h)
    · simp [putRequest, h1] at h
      rcases h with h | h
      · exact Or.inr (by simp [h])
      · rcases ih h with h' | h'
        · exact Or.inl h'
        · exact Or.inr (List.mem_cons_of_mem _ h')

theorem mem_putRequest_of_ne (l : List ParkingRequest) (r x : ParkingRequest)
    (hx : x ∈ l) (h : x.id ≠ r.id) : x ∈ putRequest l r := by
  induction l with
  | nil => simp at hx
  | cons r' rest ih =>
    by_cases h1 : r'.id = r.id
    · simp [putRequest, h1]
      rcases List.mem_cons.1 hx with h' | h'
      · exact absurd (h' ▸ h1) h
      · exact Or.inr h'
    · simp [putRequest, h1]
      rcases List.mem_cons.1 hx with h' | h'
      · exact Or.inl h'
      · exact Or.inr (ih h')

/-! ### Slot-update toolkit -/

/-- Slots of a list of areas, flattened in declared order. -/
def flatA (areas : List ParkingArea) : List ParkingSlot :=
  (areas.map (·.slots)).flatten

/-- Slots of a list of zones, flattened in map order. -/
def flatZ (zs : List Zone) : List ParkingSlot :=
  (zs.map zoneAllSlots).flatten

theorem allSlots_eq_flatZ (ps : ParkingSystem) : allSlots ps = flatZ ps.zones := rfl

theorem zoneAllSlots_eq_flatA (z : Zone) : zoneAllSlots z = flatA z.areas := rfl

theorem setSlotInSlots_append_some {sid : String} {v : Bool} {l1 l1' : List ParkingSlot}
    (l2 : List ParkingSlot) (h : setSlotInSlots sid v l1 = some l1') :
    setSlotInSlots sid v (l1 ++ l2) = some (l1' ++ l2) := by
  induction l1 generalizing l1' with
  | nil => simp [setSlotInSlots] at h
  | cons s rest ih =>
    by_cases h1 : s.id = sid
    · simp [setSlotInSlots, h1] at h ⊢
      simp [← h]
    · simp [setSlotInSlots, h1] at h ⊢
      rcases h with ⟨r', hr', hl'⟩
      exact ⟨r' ++ l2, ih hr', by simp [← hl']⟩

theorem setSlotInSlots_append_none {sid : String} {v : Bool} {l1 : List ParkingSlot}
    (l2 : List ParkingSlot) (h : setSlotInSlots sid v l1 = none) :
    setSlotInSlots sid v (l1 ++ l2) = (setSlotInSlots sid v l2).map (l1 ++ ·) := by
  induction l1 with
  | nil => simp
  | cons s rest ih =>
    by_cases h1 : s.id = sid
    · simp [setSlotInSlots, h1] at h
    · simp [setSlotInSlots, h1] at h ⊢
      rw [ih h]
      cases setSlotInSlots sid v l2 <;> simp

theorem setSlotInSlots_none_iff {sid : String} {v : Bool} {l : List ParkingSlot} :
    setSlotInSlots sid v l = none ↔ l.find? (fun s => s.id == sid) = none := by
  induction l with
  | nil => simp [setSlotInSlots]
  | cons s rest ih =>
    by_cases h1 : s.id = sid
    · simp [setSlotInSlots, h1]
    · simp [setSlotInSlots, h1, ih]

theorem setSlotInAreas_map_flat (sid : String) (v : Bool) (areas : List ParkingArea) :
    (setSlotInAreas sid v areas).map flatA = setSlotInSlots sid v (flatA areas) := by
  induction areas with
  | nil => simp [setSlotInAreas, flatA, setSlotInSlots]
  | cons a rest ih =>
    have hfl : flatA (a :: rest) = a.slots ++ flatA rest := by simp [flatA]
    cases h : setSlotInSlots sid v a.slots with
    | some s' =>
      rw [hfl, setSlotInSlots_append_some (flatA rest) h]
      simp [setSlotInAreas, h, flatA]
    | none =>
      rw [hfl, setSlotInSlots_append_none (flatA rest) h, ← ih]
      simp only [setSlotInAreas, h]
      cases setSlotInAreas sid v rest <;> simp [flatA]

theorem setSlotInZones_map_flat (sid : String) (v : Bool) (zs : List Zone) :
    (setSlotInZones sid v zs).map flatZ = setSlotInSlots sid v (flatZ zs) := by
  induction zs with
  | nil => simp [setSlotInZones, flatZ, setSlotInSlots]
  | cons z rest ih =>
    have hfl : flatZ (z :: rest) = flatA z.areas ++ flatZ rest := by
      simp [flatZ, zoneAllSlots, flatA]
    cases h : setSlotInAreas sid v z.areas with
    | some a' =>
      have hs : setSlotInSlots sid v (flatA z.areas) = some (flatA a') := by
        rw [← setSlotInAreas_map_flat, h]; rfl
      rw [hfl, setSlotInSlots_append_some (flatZ rest) hs]
      simp [setSlotInZones, h, flatZ, zoneAllSlots, flatA]
    | none =>
      have hs : setSlotInSlots sid v (flatA z.areas) = none := by
        rw [← setSlotInAreas_map_flat, h]; rfl
      rw [hfl, setSlotInSlots_append_none (flatZ rest) hs, ← ih]
      simp only [setSlotInZones, h]
      cases setSlotInZones sid v rest <;> simp [flatZ, zoneAllSlots, flatA]

theorem allSlots_setSlotAvailability_some {ps : ParkingSystem} {sid : String} {v : Bool}
    {l' : List ParkingSlot} (h : setSlotInSlots sid v (allSlots ps) = some l') :
    allSlots (setSlotAvailability ps sid v) = l' := by
  have hb := setSlotInZones_map_flat sid v ps.zones
  rw [← allSlots_eq_flatZ, h] at hb
  cases hz : setSlotInZones sid v ps.zones with
  | none => rw [hz] at hb; simp at hb
  | some zs =>
    rw [hz] at hb
    simp at hb
    simp [setSlotAvailability, hz, allSlots, ← hb, flatZ]

theorem setSlotAvailability_none {ps : ParkingSystem} {sid : String} {v : Bool}
    (h : setSlotInSlots sid v (allSlots ps) = none) :
    setSlotAvailability ps sid v = ps := by
  have hb := setSlotInZones_map_flat sid v ps.zones
  rw [← allSlots_eq_flatZ, h] at hb
  cases hz : setSlotInZones sid v ps.zones with
  | some zs => rw [hz] at hb; simp at hb
  | none => simp [setSlotAvailability, hz]

theorem find?_set_flat_same {sid : String} {v : Bool} {l : List ParkingSlot} {s : ParkingSlot}
    (h : l.find? (fun x => x.id == sid) = some s) :
    ∃ l', setSlotInSlots sid v l = some l' ∧
      l'.find? (fun x => x.id == sid) = some { s with isAvailable := v } := by
  induction l with
  | nil => simp at h
  | cons x rest ih =>
    by_cases h1 : x.id = sid
    · have hx : x = s := by simpa [List.find?_cons_of_pos, h1] using h
      have h1s : s.id = sid := by rw [← hx]; exact h1
      refine ⟨{ x with isAvailable := v } :: rest, by simp [setSlotInSlots, h1], ?_⟩
      simp [List.find?_cons_of_pos, h1, hx, h1s]
    · have h2 : rest.find? (fun x => x.id == sid) = some s := by
        simpa [List.find?_cons_of_neg, h1] using h
      rcases ih h2 with ⟨r', hr', hf⟩
      exact ⟨x :: r', by simp [setSlotInSlots, h1, hr'], by simpa [List.find?_cons_of_neg, h1]⟩

theorem find?_set_flat_other {sid sid' : String} {v : Bool} {l l' : List ParkingSlot}
    (h : setSlotInSlots sid v l = some l') (hne : sid' ≠ sid) :
    l'.find? (fun x => x.id == sid') = l.find? (fun x => x.id == sid') := by
  induction l generalizing l' with
  | nil => simp [setSlotInSlots] at h
  | cons x rest ih =>
    by_cases h1 : x.id = sid
    · simp [setSlotInSlots, h1] at h
      have h2 : ¬ x.id = sid' := by rw [h1]; exact fun hc => hne hc.symm
      have h3 : ¬ sid = sid' := fun hc => hne hc.symm
      simp [← h, List.find?_cons_of_neg, h2, h3]
    · simp [setSlotInSlots, h1] at h
      rcases h with ⟨r', hr', hl'⟩
      by_cases h2 : x.id = sid'
      · simp [← hl', List.find?_cons_of_pos, h2]
      · simp [← hl', List.find?_cons_of_neg, h2, ih hr']

theorem map_id_set_flat {sid : String} {v : Bool} {l l' : List ParkingSlot}
    (h : setSlotInSlots sid v l = some l') : l'.map (·.id) = l.map (·.id) := by
  induction l generalizing l' with
  | nil => simp [setSlotInSlots] at h
  | cons x rest ih =>
    by_cases h1 : x.id = sid
    · simp [setSlotInSlots, h1] at h
      simp [← h, h1]
    · simp [setSlotInSlots, h1] at h
      rcases h with ⟨r', hr', hl'⟩
      simp [← hl', ih hr']

theorem set_set_cancel_flat {sid : String} {v : Bool} {l l' : List ParkingSlot}
    {s : ParkingSlot} (hf : l.find? (fun x => x.id == sid) = some s)
    (h : setSlotInSlots sid v l = some l') :
    setSlotInSlots sid s.isAvailable l' = some l := by
  induction l generalizing l' with
  | nil => simp at hf
  | cons x rest ih =>
    by_cases h1 : x.id = sid
    · have hx : x = s := by simpa [List.find?_cons_of_pos, h1] using hf
      subst hx
      obtain ⟨xid, xzo, xar, xav⟩ := x
      simp only [ParkingSlot.id] at h1
      subst h1
      simp [setSlotInSlots] at h
      simp [← h, setSlotInSlots]
    · have h2 : rest.find? (fun x => x.id == sid) = some s := by
        simpa [List.find?_cons_of_neg, h1] using hf
      simp [setSlotInSlots, h1] at h
      rcases h with ⟨r', hr', hl'⟩
      simp [← hl', setSlotInSlots, h1, ih h2 hr']

theorem findSlot_setSlotAvailability_same {ps : ParkingSystem} {sid : String} {v : Bool}
    {s : ParkingSlot} (h : findSlot ps sid = some s) :
    findSlot (setSlotAvailability ps sid v) sid = some { s with isAvailable := v } := by
  rcases find?_set_flat_same (v := v) h with ⟨l', hset, hfind⟩
  rw [findSlot, allSlots_setSlotAvailability_some hset, hfind]

theorem findSlot_setSlotAvailability_other {ps : ParkingSystem} {sid sid' : String} {v : Bool}
    (hne : sid' ≠ sid) :
    findSlot (setSlotAvailability ps sid v) sid' = findSlot ps sid' := by
  cases h : setSlotInSlots sid v (allSlots ps) with
  | none => rw [setSlotAvailability_none h]
  | some l' =>
    rw [findSlot, allSlots_setSlotAvailability_some h, find?_set_flat_other h hne]
    rfl

theorem setSlotAvailability_of_not_found {ps : ParkingSystem} {sid : String} {v : Bool}
    (h : findSlot ps sid = none) : setSlotAvailability ps sid v = ps :=
  setSlotAvailability_none (setSlotInSlots_none_iff.2 h)

theorem allSlotIds_setSlotAvailability (ps : ParkingSystem) (sid : String) (v : Bool) :
    (allSlots (setSlotAvailability ps sid v)).map (·.id) = (allSlots ps).map (·.id) := by
  cases h : setSlotInSlots sid v (allSlots ps) with
  | none => rw [setSlotAvailability_none h]
  | some l' => rw [allSlots_setSlotAvailability_some h, map_id_set_flat h]

theorem setSlotAvailability_components (ps : ParkingSystem) (sid : String) (v : Bool) :
    (setSlotAvailability ps sid v).requests = ps.requests ∧
    (setSlotAvailability ps sid v).operationHistory = ps.operationHistory ∧
    (setSlotAvailability ps sid v).pendingRequests = ps.pendingRequests ∧
    (setSlotAvailability ps sid v).vehicles = ps.vehicles ∧
    (setSlotAvailability ps sid v).crossZonePenalty = ps.crossZonePenalty := by
  unfold setSlotAvailability
  cases setSlotInZones sid v ps.zones <;> simp

theorem setSlotInAreas_none_iff {sid : String} {v : Bool} {areas : List ParkingArea} :
    setSlotInAreas sid v areas = none ↔
      (flatA areas).find? (fun x => x.id == sid) = none := by
  rw [← setSlotInSlots_none_iff (v := v)]
  have hb := setSlotInAreas_map_flat sid v areas
  constructor
  · intro h; rw [h] at hb; simpa using hb.symm
  · intro h; rw [h] at hb
    cases hz : setSlotInAreas sid v areas
    · rfl
    · rw [hz] at hb; simp at hb

theorem set_set_cancel_areas {sid : String} {v : Bool} {areas a' : List ParkingArea}
    {s : ParkingSlot} (hf : (flatA areas).find? (fun x => x.id == sid) = some s)
    (h : setSlotInAreas sid v areas = some a') :
    setSlotInAreas sid s.isAvailable a' = some areas := by
  induction areas generalizing a' with
  | nil => simp [setSlotInAreas] at h
  | cons a rest ih =>
    have hfl : flatA (a :: rest) = a.slots ++ flatA rest := by simp [flatA]
    cases hs : setSlotInSlots sid v a.slots with
    | some s' =>
      have ha' : a' = { a with slots := s' } :: rest := by
        have := h
        simp only [setSlotInAreas, hs] at this
        exact (Option.some_injective _ this).symm
      have hffnn : a.slots.find? (fun x => x.id == sid) ≠ none := by
        intro hn
        rw [setSlotInSlots_none_iff.2 hn] at hs
        exact Option.noConfusion hs
      rcases Option.ne_none_iff_exists'.1 hffnn with ⟨s0, hs0⟩
      have hseq : s0 = s := by
        rw [hfl, List.find?_append, hs0] at hf
        simpa using hf
      subst hseq
      have hcancel := set_set_cancel_flat hs0 hs
      rw [ha']
      simp only [setSlotInAreas, hcancel]
    | none =>
      have hffn : a.slots.find? (fun x => x.id == sid) = none :=
        setSlotInSlots_none_iff.1 hs
      have hfrest : (flatA rest).find? (fun x => x.id == sid) = some s := by
        rw [hfl, List.find?_append, hffn] at hf
        simpa using hf
      simp only [setSlotInAreas, hs] at h
      rcases Option.map_eq_some'.1 h with ⟨rest', hrest', ha'⟩
      have hcancel := ih hfrest hrest'
      rw [← ha']
      simp only [setSlotInAreas, setSlotInSlots_none_iff.2 hffn, hcancel]
      rfl

theorem set_set_cancel_zones {sid : String} {v : Bool} {zs zs' : List Zone}
    {s : ParkingSlot} (hf : (flatZ zs).find? (fun x => x.id == sid) = some s)
    (h : setSlotInZones sid v zs = some zs') :
    setSlotInZones sid s.isAvailable zs' = some zs := by
  induction zs generalizing zs' with
  | nil => simp [setSlotInZones] at h
  | cons z rest ih =>
    have hfl : flatZ (z :: rest) = flatA z.areas ++ flatZ rest := by
      simp [flatZ, zoneAllSlots, flatA]
    cases hs : setSlotInAreas sid v z.areas with
    | some a' =>
      have hz' : zs' = { z with areas := a' } :: rest := by
        have := h
        simp only [setSlotInZones, hs] at this
        exact (Option.some_injective _ this).symm
      have hffnn : (flatA z.areas).find? (fun x => x.id == sid) ≠ none := by
        intro hn
        rw [setSlotInAreas_none_iff.2 hn] at hs
        exact Option.noConfusion hs
      rcases Option.ne_none_iff_exists'.1 hffnn with ⟨s0, hs0⟩
      have hseq : s0 = s := by
        rw [hfl, List.find?_append, hs0] at hf
        simpa using hf
      subst hseq
      have hcancel := set_set_cancel_areas hs0 hs
      rw [hz']
      simp only [setSlotInZones, hcancel]
    | none =>
      have hffn : (flatA z.areas).find? (fun x => x.id == sid) = none :=
        setSlotInAreas_none_iff.1 hs
      have hfrest : (flatZ rest).find? (fun x => x.id == sid) = some s := by
        rw [hfl, List.find?_append, hffn] at hf
        simpa using hf
      simp only [setSlotInZones, hs] at h
      rcases Option.map_eq_some'.1 h with ⟨rest', hrest', hz'⟩
      have hcancel := ih hfrest hrest'
      rw [← hz']
      simp only [setSlotInZones, setSlotInAreas_none_iff.2 hffn, hcancel]
      rfl

theorem setSlotInZones_some_of_found {ps : ParkingSystem} {sid : String} {v : Bool}
    {s : ParkingSlot} (hf : findSlot ps sid = some s) :
    ∃ zs, setSlotInZones sid v ps.zones = some zs := by
  rcases find?_set_flat_same (v := v) hf with ⟨l', hset, _⟩
  have hb := setSlotInZones_map_flat sid v ps.zones
  rw [← allSlots_eq_flatZ, hset] at hb
  cases hz : setSlotInZones sid v ps.zones with
  | none => rw [hz] at hb; simp at hb
  | some zs => exact ⟨zs, rfl⟩

theorem set_set_cancel_system {ps : ParkingSystem} {sid : String} {v : Bool}
    {s : ParkingSlot} (hf : findSlot ps sid = some s) :
    setSlotAvailability (setSlotAvailability ps sid v) sid s.isAvailable = ps := by
  rcases setSlotInZones_some_of_found (v := v) hf with ⟨zs, hz⟩
  have hc : setSlotInZones sid s.isAvailable zs = some ps.zones :=
    set_set_cancel_zones hf hz
  simp [setSlotAvailability, hz, hc]

/-! ### Mark-first-available toolkit -/

theorem markSlots_append_some {l1 l1' : List ParkingSlot} (l2 : List ParkingSlot)
    (h : markSlots l1 = some l1') : markSlots (l1 ++ l2) = some (l1' ++ l2) := by
  induction l1 generalizing l1' with
  | nil => simp [markSlots] at h
  | cons s rest ih =>
    by_cases h1 : s.isAvailable
    · simp [markSlots, h1] at h ⊢
      simp [← h]
    · simp [markSlots, h1] at h ⊢
      rcases h with ⟨r', hr', hl'⟩
      exact ⟨r' ++ l2, ih hr', by simp [← hl']⟩

theorem markSlots_append_none {l1 : List ParkingSlot} (l2 : List ParkingSlot)
    (h : markSlots l1 = none) :
    markSlots (l1 ++ l2) = (markSlots l2).map (l1 ++ ·) := by
  induction l1 with
  | nil => simp
  | cons s rest ih =>
    by_cases h1 : s.isAvailable
    · simp [markSlots, h1] at h
    · simp [markSlots, h1] at h ⊢
      rw [ih h]
      cases markSlots l2 <;> simp

theorem markSlots_none_iff {l : List ParkingSlot} :
    markSlots l = none ↔ l.filter (·.isAvailable) = [] := by
  induction l with
  | nil => simp [markSlots]
  | cons s rest ih =>
    by_cases h1 : s.isAvailable
    · simp [markSlots, h1]
    · simp [markSlots, h1, ih]

theorem markAreas_map_flat (areas : List ParkingArea) :
    (markAreas areas).map flatA = markSlots (flatA areas) := by
  induction areas with
  | nil => simp [markAreas, flatA, markSlots]
  | cons a rest ih =>
    have hfl : flatA (a :: rest) = a.slots ++ flatA rest := by simp [flatA]
    cases h : markSlots a.slots with
    | some s' =>
      rw [hfl, markSlots_append_some (flatA rest) h]
      simp [markAreas, h, flatA]
    | none =>
      rw [hfl, markSlots_append_none (flatA rest) h, ← ih]
      simp only [markAreas, h]
      cases markAreas rest <;> simp [flatA]

theorem markAreas_none_iff {areas : List ParkingArea} :
    markAreas areas = none ↔ (flatA areas).filter (·.isAvailable) = [] := by
  rw [← markSlots_none_iff]
  have hb := markAreas_map_flat areas
  constructor
  · intro h; rw [h] at hb; simpa using hb.symm
  · intro h; rw [h] at hb
    cases hz : markAreas areas
    · rfl
    · rw [hz] at hb; simp at hb

theorem markSlots_filter {l : List ParkingSlot} {s : ParkingSlot} {rest : List ParkingSlot}
    (h : l.filter (·.isAvailable) = s :: rest) :
    ∃ l', markSlots l = some l' ∧ l'.filter (·.isAvailable) = rest := by
  induction l generalizing s rest with
  | nil => simp at h
  | cons a t ih =>
    by_cases h1 : a.isAvailable
    · have hs : a = s ∧ t.filter (·.isAvailable) = rest := by
        have := h
        rw [List.filter_cons_of_pos (by simpa using h1)] at this
        exact ⟨List.head_eq_of_cons_eq this, List.tail_eq_of_cons_eq this⟩
      refine ⟨{ a with isAvailable := false } :: t, by simp [markSlots, h1], ?_⟩
      rw [List.filter_cons_of_neg (by simp)]
      exact hs.2
    · have ht : t.filter (·.isAvailable) = s :: rest := by
        have := h
        rwa [List.filter_cons_of_neg (by simpa using h1)] at this
      rcases ih ht with ⟨l', hl', hfil⟩
      refine ⟨a :: l', by simp [markSlots, h1, hl'], ?_⟩
      rw [List.filter_cons_of_neg (by simpa using h1)]
      exact hfil

theorem getAvail_eq_filter {ps : ParkingSystem} {zid : String} {z : Zone}
    (h : findZone ps zid = some z) :
    getAvailableSlotsInZone ps zid = (zoneAllSlots z).filter (·.isAvailable) := by
  simp only [getAvailableSlotsInZone, h, zoneAllSlots]
  rw [show z.areas.map (fun a => a.slots.filter (·.isAvailable))
        = (z.areas.map (·.slots)).map (·.filter (·.isAvailable)) by rw [List.map_map]; rfl]
  rw [List.filter_flatten]

theorem getAvail_none_of_no_zone {ps : ParkingSystem} {zid : String}
    (h : findZone ps zid = none) : getAvailableSlotsInZone ps zid = [] := by
  simp [getAvailableSlotsInZone, h]

theorem getAvail_nonempty_findZone {ps : ParkingSystem} {zid : String} {s : ParkingSlot}
    {rest : List ParkingSlot} (h : getAvailableSlotsInZone ps zid = s :: rest) :
    ∃ z, findZone ps zid = some z ∧
      (zoneAllSlots z).filter (·.isAvailable) = s :: rest := by
  cases hz : findZone ps zid with
  | none => rw [getAvail_none_of_no_zone hz] at h; exact absurd h (by simp)
  | some z => exact ⟨z, rfl, by rw [← getAvail_eq_filter hz]; exact h⟩

theorem markZoneFirstAvailable_id (z : Zone) :
    ((markZoneFirstAvailable z).getD z).id = z.id := by
  unfold markZoneFirstAvailable
  cases markAreas z.areas <;> simp

theorem find?_markInZones_self (zs : List Zone) (zid : String) :
    (markInZones zid zs).find? (fun x => x.id == zid)
      = (zs.find? (fun x => x.id == zid)).map (fun z => (markZoneFirstAvailable z).getD z) := by
  induction zs with
  | nil => simp [markInZones]
  | cons z rest ih =>
    by_cases h1 : z.id = zid
    · rw [markInZones]
      rw [if_pos (by simpa using h1)]
      rw [List.find?_cons_of_pos _ (by simp [markZoneFirstAvailable_id, h1]),
        List.find?_cons_of_pos _ (by simpa using h1)]
      rfl
    · rw [markInZones, if_neg (by simpa using h1)]
      rw [List.find?_cons_of_neg _ (by simpa using h1),
        List.find?_cons_of_neg _ (by simpa using h1), ih]

theorem mark_avail {ps : ParkingSystem} {zid : String} {s : ParkingSlot}
    {rest : List ParkingSlot} (h : getAvailableSlotsInZone ps zid = s :: rest) :
    getAvailableSlotsInZone (markFirstAvailableInZone ps zid) zid = rest := by
  rcases getAvail_nonempty_findZone h with ⟨z, hz, hfil⟩
  rcases markSlots_filter (l := flatA z.areas) hfil with ⟨fl', hmk, hfil'⟩
  have hb := markAreas_map_flat z.areas
  rw [hmk] at hb
  cases hma : markAreas z.areas with
  | none => rw [hma] at hb; simp at hb
  | some a' =>
    rw [hma] at hb; simp at hb
    have hz' : findZone (markFirstAvailableInZone ps zid) zid
        = some { z with areas := a' } := by
      show (markInZones zid ps.zones).find? (fun x => x.id == zid) = _
      rw [find?_markInZones_self,
        show ps.zones.find? (fun x => x.id == zid) = some z from hz]
      simp [markZoneFirstAvailable, hma]
    rw [getAvail_eq_filter hz']
    show (flatA a').filter (·.isAvailable) = rest
    rw [hb]
    exact hfil'

/-! ### Agreement of the allocation mutation with set-by-id -/

theorem find?_id_eq_none_of_not_mem {l : List ParkingSlot} {sid : String}
    (h : sid ∉ l.map (·.id)) : l.find? (fun x => x.id == sid) = none := by
  rw [List.find?_eq_none]
  intro x hx hc
  exact h ((beq_iff_eq.1 hc) ▸ List.mem_map_of_mem _ hx)

theorem find?_id_self_of_nodup {l : List ParkingSlot} {s : ParkingSlot}
    (hnd : (l.map (·.id)).Nodup) (hmem : s ∈ l) :
    l.find? (fun x => x.id == s.id) = some s := by
  induction l with
  | nil => simp at hmem
  | cons a t ih =>
    rcases List.mem_cons.1 hmem with h | h
    · subst h
      exact List.find?_cons_of_pos _ (by simp)
    · have hne : a.id ≠ s.id := by
        intro hc
        have : a.id ∈ t.map (·.id) := hc ▸ List.mem_map_of_mem _ h
        exact (List.nodup_cons.1 hnd).1 this
      rw [List.find?_cons_of_neg _ (by simpa using hne)]
      exact ih (List.nodup_cons.1 hnd).2 h

theorem agree_slots {l : List ParkingSlot} {s : ParkingSlot} {rest : List ParkingSlot}
    (hfil : l.filter (·.isAvailable) = s :: rest) (hnd : (l.map (·.id)).Nodup) :
    markSlots l = setSlotInSlots s.id false l := by
  induction l generalizing s rest with
  | nil => simp at hfil
  | cons a t ih =>
    by_cases h1 : a.isAvailable
    · have hs : a = s := by
        have := hfil
        rw [List.filter_cons_of_pos (by simpa using h1)] at this
        exact List.head_eq_of_cons_eq this
      rw [markSlots, setSlotInSlots, if_pos (by simpa using h1),
        if_pos (by simp [hs])]
    · have ht : t.filter (·.isAvailable) = s :: rest := by
        have := hfil
        rwa [List.filter_cons_of_neg (by simpa using h1)] at this
      have hmem : s ∈ t := by
        have : s ∈ t.filter (·.isAvailable) := by rw [ht]; simp
        exact List.mem_of_mem_filter this
      have hne : a.id ≠ s.id := by
        intro hc
        have : a.id ∈ t.map (·.id) := hc ▸ List.mem_map_of_mem _ hmem
        exact (List.nodup_cons.1 hnd).1 this
      rw [markSlots, setSlotInSlots, if_neg (by simpa using h1),
        if_neg (by simpa using hne), ih ht (List.nodup_cons.1 hnd).2]

theorem agree_areas {areas : List ParkingArea} {s : ParkingSlot} {rest : List ParkingSlot}
    (hfil : (flatA areas).filter (·.isAvailable) = s :: rest)
    (hnd : ((flatA areas).map (·.id)).Nodup) :
    markAreas areas = setSlotInAreas s.id false areas := by
  induction areas generalizing s rest with
  | nil => simp [flatA] at hfil
  | cons a t ih =>
    have hfl : flatA (a :: t) = a.slots ++ flatA t := by simp [flatA]
    rw [hfl] at hfil hnd
    rw [List.filter_append] at hfil
    cases hfa : a.slots.filter (·.isAvailable) with
    | nil =>
      rw [hfa, List.nil_append] at hfil
      have hmk : markSlots a.slots = none := markSlots_none_iff.2 hfa
      have hmem : s ∈ flatA t := by
        have : s ∈ (flatA t).filter (·.isAvailable) := by rw [hfil]; simp
        exact List.mem_of_mem_filter this
      have hnotmem : s.id ∉ a.slots.map (·.id) := by
        intro hc
        have hdis := (List.nodup_append.1 (by simpa using hnd)).2.2
        exact hdis hc (List.mem_map_of_mem _ hmem)
      have hset : setSlotInSlots s.id false a.slots = none :=
        setSlotInSlots_none_iff.2 (find?_id_eq_none_of_not_mem hnotmem)
      rw [markAreas, setSlotInAreas, hmk, hset,
        ih hfil ((List.nodup_append.1 (by simpa using hnd)).2.1)]
    | cons s1 r1 =>
      have hs1 : s1 = s := by
        rw [hfa, List.cons_append] at hfil
        exact List.head_eq_of_cons_eq hfil
      subst hs1
      have hagree := agree_slots hfa ((List.nodup_append.1 (by simpa using hnd)).1)
      rcases markSlots_filter hfa with ⟨l', hl', _⟩
      rw [markAreas, setSlotInAreas, ← hagree, hl']

theorem agree_zones {zs : List Zone} {zid : String} {z : Zone} {s : ParkingSlot}
    {rest : List ParkingSlot}
    (hfind : zs.find? (fun x => x.id == zid) = some z)
    (hfil : (zoneAllSlots z).filter (·.isAvailable) = s :: rest)
    (hnd : ((flatZ zs).map (·.id)).Nodup) :
    ∃ zs', setSlotInZones s.id false zs = some zs' ∧ markInZones zid zs = zs' := by
  induction zs with
  | nil => simp at hfind
  | cons z0 t ih =>
    have hfl : flatZ (z0 :: t) = flatA z0.areas ++ flatZ t := by
      simp [flatZ, zoneAllSlots, flatA]
    rw [hfl] at hnd
    by_cases h1 : z0.id = zid
    · have hz0 : z0 = z := by
        have := hfind
        rw [List.find?_cons_of_pos _ (by simpa using h1)] at this
        exact Option.some_injective _ this
      subst hz0
      have hagree := @agree_areas z0.areas s rest
        (by rw [← zoneAllSlots_eq_flatA]; exact hfil)
        ((List.nodup_append.1 (by simpa using hnd)).1)
      rcases @markSlots_filter (flatA z0.areas) s rest
        (by rw [← zoneAllSlots_eq_flatA]; exact hfil) with ⟨fl', hmk, _⟩
      have hb := markAreas_map_flat z0.areas
      rw [hmk] at hb
      cases hma : markAreas z0.areas with
      | none => rw [hma] at hb; simp at hb
      | some a' =>
        refine ⟨{ z0 with areas := a' } :: t, ?_, ?_⟩
        · rw [setSlotInZones, ← hagree, hma]
        · rw [markInZones, if_pos (by simpa using h1)]
          simp [markZoneFirstAvailable, hma]
    · have hfind' : t.find? (fun x => x.id == zid) = some z := by
        have := hfind
        rwa [List.find?_cons_of_neg _ (by simpa using h1)] at this
      have hmemz : z ∈ t := List.mem_of_find?_eq_some hfind'
      have hmems : s ∈ flatZ t := by
        have hsz : s ∈ zoneAllSlots z := by
          have : s ∈ (zoneAllSlots z).filter (·.isAvailable) := by rw [hfil]; simp
          exact List.mem_of_mem_filter this
        have : zoneAllSlots z ∈ t.map zoneAllSlots := List.mem_map_of_mem _ hmemz
        exact List.mem_flatten.2 ⟨zoneAllSlots z, this, hsz⟩
      have hnotmem : s.id ∉ (flatA z0.areas).map (·.id) := by
        intro hc
        have hdis := (List.nodup_append.1 (by simpa using hnd)).2.2
        exact hdis hc (List.mem_map_of_mem _ hmems)
      have hset : setSlotInAreas s.id false z0.areas = none :=
        setSlotInAreas_none_iff.2 (find?_id_eq_none_of_not_mem hnotmem)
      rcases ih hfind' ((List.nodup_append.1 (by simpa using hnd)).2.1) with ⟨zs', hzs', hmz⟩
      refine ⟨z0 :: zs', ?_, ?_⟩
      · rw [setSlotInZones, hset, hzs']
        rfl
      · rw [markInZones, if_neg (by simpa using h1), hmz]

theorem mark_eq_setSlot {ps : ParkingSystem} {zid : String} {s : ParkingSlot}
    {rest : List ParkingSlot} (hnd : ((allSlots ps).map (·.id)).Nodup)
    (h : getAvailableSlotsInZone ps zid = s :: rest) :
    markFirstAvailableInZone ps zid = setSlotAvailability ps s.id false := by
  rcases getAvail_nonempty_findZone h with ⟨z, hz, hfil⟩
  rcases agree_zones hz hfil (by rw [← allSlots_eq_flatZ]; exact hnd) with ⟨zs', hset, hmark⟩
  rw [markFirstAvailableInZone, hmark]
  rw [setSlotAvailability, hset]

/-! ### Membership and lookup helpers -/

theorem mem_allSlots_of_zone {ps : ParkingSystem} {zid : String} {z : Zone}
    {s : ParkingSlot} (hz : findZone ps zid = some z) (hs : s ∈ zoneAllSlots z) :
    s ∈ allSlots ps := by
  have hmemz : z ∈ ps.zones := List.mem_of_find?_eq_some hz
  exact List.mem_flatten.2 ⟨zoneAllSlots z, List.mem_map_of_mem _ hmemz, hs⟩

theorem mem_avail_props {ps : ParkingSystem} {zid : String} {s : ParkingSlot}
    (h : s ∈ getAvailableSlotsInZone ps zid) :
    s ∈ allSlots ps ∧ s.isAvailable = true := by
  cases hz : findZone ps zid with
  | none => rw [getAvail_none_of_no_zone hz] at h; simp at h
  | some z =>
    rw [getAvail_eq_filter hz] at h
    exact ⟨mem_allSlots_of_zone hz (List.mem_of_mem_filter h),
      by simpa using List.of_mem_filter h⟩

theorem findSlot_self_of_nodup {ps : ParkingSystem} {s : ParkingSlot}
    (hnd : ((allSlots ps).map (·.id)).Nodup) (hmem : s ∈ allSlots ps) :
    findSlot ps s.id = some s :=
  find?_id_self_of_nodup hnd hmem

/-! ### Transition-guard characterizations -/

theorem canTransition_allocated (st : RequestState) :
    canTransition st .ALLOCATED = true ↔ st = .REQUESTED := by
  cases st <;> simp [canTransition, VALID_TRANSITIONS]

theorem canTransition_occupied (st : RequestState) :
    canTransition st .OCCUPIED = true ↔ st = .ALLOCATED := by
  cases st <;> simp [canTransition, VALID_TRANSITIONS]

theorem canTransition_released (st : RequestState) :
    canTransition st .RELEASED = true ↔ st = .OCCUPIED := by
  cases st <;> simp [canTransition, VALID_TRANSITIONS]

theorem canTransition_cancelled (st : RequestState) :
    canTransition st .CANCELLED = true ↔ st = .REQUESTED ∨ st = .ALLOCATED := by
  cases st <;> simp [canTransition, VALID_TRANSITIONS]

/-! ### Operation-shape lemmas -/

theorem markFirstAvailableInZone_requests (ps : ParkingSystem) (zid : String) :
    (markFirstAvailableInZone ps zid).requests = ps.requests := rfl

theorem markFirstAvailableInZone_operationHistory (ps : ParkingSystem) (zid : String) :
    (markFirstAvailableInZone ps zid).operationHistory = ps.operationHistory := rfl

theorem firstAdjacentWithSlot_some {ps : ParkingSystem} {l : List String} {zid : String}
    {slots : List ParkingSlot} (h : firstAdjacentWithSlot ps l = some (zid, slots)) :
    getAvailableSlotsInZone ps zid = slots ∧ slots ≠ [] := by
  induction l with
  | nil => simp [firstAdjacentWithSlot] at h
  | cons z0 rest ih =>
    by_cases h1 : getAvailableSlotsInZone ps z0 = []
    · rw [firstAdjacentWithSlot, if_pos (by simp [h1])] at h
      exact ih h
    · rw [firstAdjacentWithSlot, if_neg (by simpa using h1)] at h
      simp only [Option.some.injEq, Prod.mk.injEq] at h
      obtain ⟨hz, hs⟩ := h
      subst hz
      rw [hs] at h1
      exact ⟨hs, h1⟩

theorem firstAdjacentWithSlot_of_initial {ps : ParkingSystem} {pre : List String}
    {zid : String} (post : List String) {s : ParkingSlot} {rest : List ParkingSlot}
    (hpre : ∀ z ∈ pre, getAvailableSlotsInZone ps z = [])
    (hz : getAvailableSlotsInZone ps zid = s :: rest) :
    firstAdjacentWithSlot ps (pre ++ zid :: post) = some (zid, s :: rest) := by
  induction pre with
  | nil =>
    simp only [List.nil_append, firstAdjacentWithSlot]
    rw [if_neg (by simp [hz]), hz]
  | cons z0 t ih =>
    simp only [List.cons_append, firstAdjacentWithSlot]
    rw [if_pos (by simp [hpre z0 (by simp)])]
    exact ih (fun z hm => hpre z (List.mem_cons_of_mem _ hm))

theorem firstAdjacentWithSlot_none {ps : ParkingSystem} {l : List String}
    (h : ∀ z ∈ l, getAvailableSlotsInZone ps z = []) :
    firstAdjacentWithSlot ps l = none := by
  induction l with
  | nil => rfl
  | cons z0 t ih =>
    rw [firstAdjacentWithSlot, if_pos (by simp [h z0 (by simp)])]
    exact ih (fun z hm => h z (List.mem_cons_of_mem _ hm))

theorem selectTarget_same {ps : ParkingSystem} {req : ParkingRequest} {s : ParkingSlot}
    {rest : List ParkingSlot}
    (h : getAvailableSlotsInZone ps req.requestedZoneId = s :: rest) :
    selectTarget ps req = some (req.requestedZoneId, s :: rest, false) := by
  rw [selectTarget]
  simp [h]

theorem selectTarget_cross {ps : ParkingSystem} {req : ParkingRequest} {z : Zone}
    {pre : List String} {zid : String} (post : List String) {s : ParkingSlot}
    {rest : List ParkingSlot}
    (hempty : getAvailableSlotsInZone ps req.requestedZoneId = [])
    (hz : findZone ps req.requestedZoneId = some z)
    (hadj : z.adjacentZones = pre ++ zid :: post)
    (hpre : ∀ zid' ∈ pre, getAvailableSlotsInZone ps zid' = [])
    (hzid : getAvailableSlotsInZone ps zid = s :: rest) :
    selectTarget ps req = some (zid, s :: rest, true) := by
  rw [selectTarget]
  simp only [hempty, List.isEmpty_nil, if_true, hz, hadj]
  rw [firstAdjacentWithSlot_of_initial post hpre hzid]
  rfl

theorem selectTarget_none_no_zone {ps : ParkingSystem} {req : ParkingRequest}
    (hempty : getAvailableSlotsInZone ps req.requestedZoneId = [])
    (hz : findZone ps req.requestedZoneId = none) :
    selectTarget ps req = none := by
  rw [selectTarget]
  simp [hempty, hz]

theorem selectTarget_none_all_empty {ps : ParkingSystem} {req : ParkingRequest} {z : Zone}
    (hempty : getAvailableSlotsInZone ps req.requestedZoneId = [])
    (hz : findZone ps req.requestedZoneId = some z)
    (hadj : ∀ zid ∈ z.adjacentZones, getAvailableSlotsInZone ps zid = []) :
    selectTarget ps req = none := by
  rw [selectTarget]
  simp [hempty, hz, firstAdjacentWithSlot_none hadj]

theorem selectTarget_some_props {ps : ParkingSystem} {req : ParkingRequest} {zid : String}
    {slots : List ParkingSlot} {cross : Bool}
    (h : selectTarget ps req = some (zid, slots, cross)) :
    getAvailableSlotsInZone ps zid = slots ∧ slots ≠ [] := by
  rw [selectTarget] at h
  by_cases h1 : getAvailableSlotsInZone ps req.requestedZoneId = []
  · simp only [h1, List.isEmpty_nil, if_true] at h
    cases hz : findZone ps req.requestedZoneId with
    | none => rw [hz] at h; simp at h
    | some z =>
      rw [hz] at h
      dsimp only at h
      simp only [Option.map_eq_some'] at h
      rcases h with ⟨p, hp, heq⟩
      obtain ⟨p1, p2⟩ := p
      simp only [Prod.mk.injEq] at heq
      obtain ⟨hz1, hs, _⟩ := heq
      subst hz1
      rcases firstAdjacentWithSlot_some hp with ⟨ha, hne⟩
      rw [← hs]
      exact ⟨ha, hne⟩
  · rw [if_neg (by simpa using h1)] at h
    simp only [Option.some.injEq, Prod.mk.injEq] at h
    obtain ⟨hz1, hs, _⟩ := h
    subst hz1
    rw [← hs]
    exact ⟨rfl, h1⟩

theorem allocateSlot_success_eq {ps : ParkingSystem} {rid oid : String} {now : Nat}
    {req : ParkingRequest} {zid : String} {s : ParkingSlot} {rest : List ParkingSlot}
    {cross : Bool}
    (hreq : getRequest ps rid = some req)
    (hcan : canTransition req.state .ALLOCATED = true)
    (hsel : selectTarget ps req = some (zid, s :: rest, cross)) :
    ∃ msg, allocateSlot ps rid oid now =
      ({ success := true
         message := msg
         request := some { req with
            allocatedSlotId := some s.id
            allocatedZoneId := some s.zoneId
            state := .ALLOCATED
            allocationTime := some now
            isCrossZone := cross
            crossZonePenalty := if cross then ps.crossZonePenalty else 0 } },
       { markFirstAvailableInZone
           { ps with operationHistory :=
               { id := oid
                 requestId := req.id
                 slotId := s.id
                 previousSlotState := s.isAvailable
                 previousRequestState := req.state
                 timestamp := now } :: ps.operationHistory }
           zid with
         requests := putRequest ps.requests { req with
            allocatedSlotId := some s.id
            allocatedZoneId := some s.zoneId
            state := .ALLOCATED
            allocationTime := some now
            isCrossZone := cross
            crossZonePenalty := if cross then ps.crossZonePenalty else 0 } }) := by
  simp only [allocateSlot, hreq, hcan, hsel, if_true]
  exact ⟨_, rfl⟩

theorem allocateSlot_notfound {ps : ParkingSystem} {rid oid : String} {now : Nat}
    (h : getRequest ps rid = none) :
    allocateSlot ps rid oid now
      = ({ success := false, message := "Request not found", request := none }, ps) := by
  simp [allocateSlot, h]

theorem allocateSlot_invalid {ps : ParkingSystem} {rid oid : String} {now : Nat}
    {req : ParkingRequest} (hreq : getRequest ps rid = some req)
    (hcan : canTransition req.state .ALLOCATED = false) :
    allocateSlot ps rid oid now
      = ({ success := false, message := invalidTransitionMsg req.state .ALLOCATED,
           request := none }, ps) := by
  simp [allocateSlot, hreq, hcan]

theorem allocateSlot_noslots {ps : ParkingSystem} {rid oid : String} {now : Nat}
    {req : ParkingRequest} (hreq : getRequest ps rid = some req)
    (hcan : canTransition req.state .ALLOCATED = true)
    (hsel : selectTarget ps req = none) :
    allocateSlot ps rid oid now
      = ({ success := false
           message := "No available slots in requested zone or adjacent zones"
           request := none }, ps) := by
  simp [allocateSlot, hreq, hcan, hsel]

theorem occupySlot_success {ps : ParkingSystem} {rid : String} {now : Nat}
    {req : ParkingRequest} (hreq : getRequest ps rid = some req)
    (hcan : canTransition req.state .OCCUPIED = true) :
    occupySlot ps rid now
      = ({ success := true, message := "Slot is now occupied",
           request := some { req with state := .OCCUPIED, occupiedTime := some now } },
         { ps with requests :=
             putRequest ps.requests { req with state := .OCCUPIED, occupiedTime := some now } }) := by
  simp [occupySlot, hreq, hcan]

theorem occupySlot_invalid {ps : ParkingSystem} {rid : String} {now : Nat}
    {req : ParkingRequest} (hreq : getRequest ps rid = some req)
    (hcan : canTransition req.state .OCCUPIED = false) :
    occupySlot ps rid now
      = ({ success := false, message := invalidTransitionMsg req.state .OCCUPIED,
           request := none }, ps) := by
  simp [occupySlot, hreq, hcan]

theorem releaseSlot_success {ps : ParkingSystem} {rid : String} {now : Nat}
    {req : ParkingRequest} (hreq : getRequest ps rid = some req)
    (hcan : canTransition req.state .RELEASED = true) :
    releaseSlot ps rid now
      = ({ success := true, message := "Slot released successfully",
           request := some { req with state := .RELEASED, releaseTime := some now } },
         { (match req.allocatedSlotId with
            | none => ps
            | some sid => setSlotAvailability ps sid true) with
           requests := putRequest
             (match req.allocatedSlotId with
              | none => ps
              | some sid => setSlotAvailability ps sid true).requests
             { req with state := .RELEASED, releaseTime := some now } }) := by
  simp [releaseSlot, hreq, hcan]

theorem releaseSlot_invalid {ps : ParkingSystem} {rid : String} {now : Nat}
    {req : ParkingRequest} (hreq : getRequest ps rid = some req)
    (hcan : canTransition req.state .RELEASED = false) :
    releaseSlot ps rid now
      = ({ success := false, message := invalidTransitionMsg req.state .RELEASED,
           request := none }, ps) := by
  simp [releaseSlot, hreq, hcan]

theorem cancelRequest_success {ps : ParkingSystem} {rid : String}
    {req : ParkingRequest} (hreq : getRequest ps rid = some req)
    (hcan : canTransition req.state .CANCELLED = true) :
    cancelRequest ps rid
      = ({ success := true, message := "Request cancelled successfully",
           request := some { req with state := .CANCELLED } },
         { (match req.allocatedSlotId with
            | none => ps
            | some sid => setSlotAvailability ps sid true) with
           requests := putRequest
             (match req.allocatedSlotId with
              | none => ps
              | some sid => setSlotAvailability ps sid true).requests
             { req with state := .CANCELLED } }) := by
  simp [cancelRequest, hreq, hcan]

theorem cancelRequest_invalid {ps : ParkingSystem} {rid : String}
    {req : ParkingRequest} (hreq : getRequest ps rid = some req)
    (hcan : canTransition req.state .CANCELLED = false) :
    cancelRequest ps rid
      = ({ success := false, message := invalidTransitionMsg req.state .CANCELLED,
           request := none }, ps) := by
  simp [cancelRequest, hreq, hcan]

/-! ### Topology well-formedness -/

/-- Slot ids are globally unique, as the spec's data-model invariant
requires of a loaded topology. -/
def SlotIdsNodup (ps : ParkingSystem) : Prop :=
  ((allSlots ps).map (·.id)).Nodup

/-- Every slot's `zoneId` back reference names the zone that physically
contains it. -/
def CoherentZones (ps : ParkingSystem) : Prop :=
  ∀ z ∈ ps.zones, ∀ a ∈ z.areas, ∀ s ∈ a.slots, s.zoneId = z.id

instance (ps : ParkingSystem) : Decidable (SlotIdsNodup ps) := by
  unfold SlotIdsNodup; infer_instance

instance (ps : ParkingSystem) : Decidable (CoherentZones ps) := by
  unfold CoherentZones; infer_instance

theorem zoneId_of_mem_zone {ps : ParkingSystem} {zid : String} {z : Zone} {s : ParkingSlot}
    (hcoh : CoherentZones ps) (hz : findZone ps zid = some z) (hs : s ∈ zoneAllSlots z) :
    s.zoneId = zid := by
  have hzid : z.id = zid := by simpa using List.find?_some hz
  have hmemz : z ∈ ps.zones := List.mem_of_find?_eq_some hz
  rcases List.mem_flatten.1 hs with ⟨sl, hsl, hmem⟩
  rcases List.mem_map.1 hsl with ⟨a, ha, hae⟩
  subst hae
  rw [hcoh z hmemz a ha s hmem]
  exact hzid

theorem mem_avail_zoneId {ps : ParkingSystem} {zid : String} {s : ParkingSlot}
    (hcoh : CoherentZones ps) (h : s ∈ getAvailableSlotsInZone ps zid) :
    s.zoneId = zid := by
  cases hz : findZone ps zid with
  | none => rw [getAvail_none_of_no_zone hz] at h; simp at h
  | some z =>
    rw [getAvail_eq_filter hz] at h
    exact zoneId_of_mem_zone hcoh hz (List.mem_of_mem_filter h)

/-! ### Witness fixtures (a small loaded topology) -/

def wSlotA1 : ParkingSlot :=
  { id := "slot-a1-1", zoneId := "zone-a", areaId := "area-a1", isAvailable := true }

def wSlotA2 : ParkingSlot :=
  { id := "slot-a1-2", zoneId := "zone-a", areaId := "area-a1", isAvailable := true }

def wSlotB1 : ParkingSlot :=
  { id := "slot-b1-1", zoneId := "zone-b", areaId := "area-b1", isAvailable := true }

def wZoneA : Zone :=
  { id := "zone-a", name := "Zone A", adjacentZones := ["zone-b"],
    areas := [{ id := "area-a1", name := "Area A1", zoneId := "zone-a",
                slots := [wSlotA1, wSlotA2] }] }

def wZoneB : Zone :=
  { id := "zone-b", name := "Zone B", adjacentZones := ["zone-a"],
    areas := [{ id := "area-b1", name := "Area B1", zoneId := "zone-b",
                slots := [wSlotB1] }] }

/-- `wZoneA` with both slots occupied. -/
def wZoneAFull : Zone :=
  { id := "zone-a", name := "Zone A", adjacentZones := ["zone-b"],
    areas := [{ id := "area-a1", name := "Area A1", zoneId := "zone-a",
                slots := [{ wSlotA1 with isAvailable := false },
                          { wSlotA2 with isAvailable := false }] }] }

def wReq1 : ParkingRequest :=
  { id := "r1", vehicleId := "v1", requestedZoneId := "zone-a",
    allocatedSlotId := none, allocatedZoneId := none, state := .REQUESTED,
    requestTime := 0, allocationTime := none, occupiedTime := none,
    releaseTime := none, isCrossZone := false, crossZonePenalty := 0 }

def wSys : ParkingSystem :=
  { zones := [wZoneA, wZoneB], vehicles := [], requests := [wReq1],
    operationHistory := [], pendingRequests := ["r1"], crossZonePenalty := 10 }

/-- `wSys` with zone `zone-a` fully occupied. -/
def wSysFull : ParkingSystem :=
  { zones := [wZoneAFull, wZoneB], vehicles := [], requests := [wReq1],
    operationHistory := [], pendingRequests := ["r1"], crossZonePenalty := 10 }

/-! ### C1 -/

/-- C1: a request in state `REQUESTED` whose requested zone has an
available slot is allocated the first available slot of that zone in
declared iteration order (`getAvailableSlotsInZone` enumerates areas in
zone order and slots in area order, so the head `s` of its result is that
slot): the operation succeeds, sets `allocatedSlotId` to the chosen slot,
`allocatedZoneId` to the requested zone, the state to `ALLOCATED`,
`isCrossZone` to `false` and `crossZonePenalty` to `0`, and marks the
chosen slot unavailable (it disappears from the available list). -/
theorem C1_allocate_same_zone {ps : ParkingSystem} {rid oid : String} {now : Nat}
    {req : ParkingRequest} {s : ParkingSlot} {rest : List ParkingSlot}
    (hnd : SlotIdsNodup ps) (hcoh : CoherentZones ps)
    (hreq : getRequest ps rid = some req)
    (hstate : req.state = .REQUESTED)
    (havail : getAvailableSlotsInZone ps req.requestedZoneId = s :: rest) :
    (allocateSlot ps rid oid now).1.success = true ∧
    (allocateSlot ps rid oid now).1.request = some { req with
        allocatedSlotId := some s.id
        allocatedZoneId := some req.requestedZoneId
        state := .ALLOCATED
        allocationTime := some now
        isCrossZone := false
        crossZonePenalty := 0 } ∧
    getRequest (allocateSlot ps rid oid now).2 rid = some { req with
        allocatedSlotId := some s.id
        allocatedZoneId := some req.requestedZoneId
        state := .ALLOCATED
        allocationTime := some now
        isCrossZone := false
        crossZonePenalty := 0 } ∧
    findSlot (allocateSlot ps rid oid now).2 s.id = some { s with isAvailable := false } ∧
    getAvailableSlotsInZone (allocateSlot ps rid oid now).2 req.requestedZoneId = rest := by
  have hid : req.id = rid := by simpa using List.find?_some hreq
  have hzcoh : s.zoneId = req.requestedZoneId :=
    mem_avail_zoneId hcoh (by rw [havail]; simp)
  have hcan : canTransition req.state .ALLOCATED = true :=
    (canTransition_allocated req.state).2 hstate
  have hsel := selectTarget_same havail
  rcases @allocateSlot_success_eq ps rid oid now req req.requestedZoneId s rest false
    hreq hcan hsel with ⟨msg, heq⟩
  rw [heq]
  have hreqrec : ({ req with
      allocatedSlotId := some s.id
      allocatedZoneId := some s.zoneId
      state := RequestState.ALLOCATED
      allocationTime := some now
      isCrossZone := false
      crossZonePenalty := if false then ps.crossZonePenalty else 0 } : ParkingRequest)
      = { req with
      allocatedSlotId := some s.id
      allocatedZoneId := some req.requestedZoneId
      state := RequestState.ALLOCATED
      allocationTime := some now
      isCrossZone := false
      crossZonePenalty := 0 } := by
    simp [hzcoh]
  refine ⟨rfl, by simp [hzcoh], ?_, ?_, ?_⟩
  · show (putRequest ps.requests _).find? (fun x => x.id == rid) = _
    rw [hreqrec, ← hid]
    simpa using putRequest_find_same ps.requests { req with
      allocatedSlotId := some s.id
      allocatedZoneId := some req.requestedZoneId
      state := RequestState.ALLOCATED
      allocationTime := some now
      isCrossZone := false
      crossZonePenalty := 0 }
  · have hsmem : s ∈ allSlots ps := (mem_avail_props (by rw [havail]; simp)).1
    have hmk : markFirstAvailableInZone
        { ps with operationHistory :=
            { id := oid, requestId := req.id, slotId := s.id,
              previousSlotState := s.isAvailable,
              previousRequestState := req.state, timestamp := now } :: ps.operationHistory }
        req.requestedZoneId
        = setSlotAvailability
            { ps with operationHistory :=
                { id := oid, requestId := req.id, slotId := s.id,
                  previousSlotState := s.isAvailable,
                  previousRequestState := req.state, timestamp := now } :: ps.operationHistory }
            s.id false :=
      mark_eq_setSlot hnd havail
    show findSlot (markFirstAvailableInZone _ req.requestedZoneId) s.id = _
    rw [hmk]
    exact findSlot_setSlotAvailability_same (findSlot_self_of_nodup hnd hsmem)
  · show getAvailableSlotsInZone (markFirstAvailableInZone _ req.requestedZoneId)
        req.requestedZoneId = rest
    exact mark_avail havail

/-- Witness for C1 on the concrete fixture `wSys`. -/
theorem C1_witness :
    (allocateSlot wSys "r1" "op-1" 5).1.success = true ∧
    (allocateSlot wSys "r1" "op-1" 5).1.request = some { wReq1 with
        allocatedSlotId := some "slot-a1-1"
        allocatedZoneId := some "zone-a"
        state := .ALLOCATED
        allocationTime := some 5
        isCrossZone := false
        crossZonePenalty := 0 } ∧
    getRequest (allocateSlot wSys "r1" "op-1" 5).2 "r1" = some { wReq1 with
        allocatedSlotId := some "slot-a1-1"
        allocatedZoneId := some "zone-a"
        state := .ALLOCATED
        allocationTime := some 5
        isCrossZone := false
        crossZonePenalty := 0 } ∧
    findSlot (allocateSlot wSys "r1" "op-1" 5).2 "slot-a1-1"
      = some { wSlotA1 with isAvailable := false } ∧
    getAvailableSlotsInZone (allocateSlot wSys "r1" "op-1" 5).2 "zone-a" = [wSlotA2] :=
  @C1_allocate_same_zone wSys "r1" "op-1" 5 wReq1 wSlotA1 [wSlotA2]
    (by decide) (by decide) (by decide) (by decide) (by decide)

/-! ### C2 -/

theorem loadState_crossZonePenalty (ps : ParkingSystem) (st : ParkingSystemState) :
    (loadState ps st).crossZonePenalty = ps.crossZonePenalty := by
  unfold loadState
  have h1 : ∀ (l : List Zone) (a : ParkingSystem),
      (l.foldl (fun a z => { a with zones := putZone a.zones z }) a).crossZonePenalty
        = a.crossZonePenalty := by
    intro l
    induction l with
    | nil => intro a; rfl
    | cons x t ih => intro a; simp [List.foldl, ih]
  have h2 : ∀ (l : List Vehicle) (a : ParkingSystem),
      (l.foldl (fun a v => { a with vehicles := putVehicle a.vehicles v }) a).crossZonePenalty
        = a.crossZonePenalty := by
    intro l
    induction l with
    | nil => intro a; rfl
    | cons x t ih => intro a; simp [List.foldl, ih]
  have h3 : ∀ (l : List ParkingRequest) (a : ParkingSystem),
      (l.foldl (fun a r => { a with requests := putRequest a.requests r }) a).crossZonePenalty
        = a.crossZonePenalty := by
    intro l
    induction l with
    | nil => intro a; rfl
    | cons x t ih => intro a; simp [List.foldl, ih]
  have h4 : ∀ (l : List AllocationOperation) (a : ParkingSystem),
      (l.foldl (fun a o => { a with operationHistory := o :: a.operationHistory }) a).crossZonePenalty
        = a.crossZonePenalty := by
    intro l
    induction l with
    | nil => intro a; rfl
    | cons x t ih => intro a; simp [List.foldl, ih]
  rw [h4, h3, h2, h1]

/-- The constructor leaves the core-level cross-zone penalty at its
initialiser value 10, whatever initial state is loaded. -/
theorem mkParkingSystem_penalty (st : Option ParkingSystemState) :
    (mkParkingSystem st).crossZonePenalty = 10 := by
  cases st with
  | none => rfl
  | some st => rw [mkParkingSystem, loadState_crossZonePenalty]; rfl

/-- C2: a `REQUESTED` request whose requested zone has no available slot
is allocated from the stored adjacency list in order: with
`adjacentZones = pre ++ zid :: post` where every zone of `pre` has no
available slot and zone `zid` has available slots `s :: rest` in declared
order, allocation succeeds on the first such slot `s`, sets
`allocatedZoneId` to that adjacent zone, `isCrossZone` to `true` and
`crossZonePenalty` to the core-level constant (the system's
`crossZonePenalty` field, which the constructor always initialises
to 10). -/
theorem C2_allocate_cross_zone {ps : ParkingSystem} {rid oid : String} {now : Nat}
    {req : ParkingRequest} {z : Zone} {pre : List String} {zid : String} {post : List String}
    {s : ParkingSlot} {rest : List ParkingSlot}
    (hnd : SlotIdsNodup ps) (hcoh : CoherentZones ps)
    (hreq : getRequest ps rid = some req)
    (hstate : req.state = .REQUESTED)
    (hempty : getAvailableSlotsInZone ps req.requestedZoneId = [])
    (hz : findZone ps req.requestedZoneId = some z)
    (hadj : z.adjacentZones = pre ++ zid :: post)
    (hpre : ∀ zid' ∈ pre, getAvailableSlotsInZone ps zid' = [])
    (havail : getAvailableSlotsInZone ps zid = s :: rest) :
    (allocateSlot ps rid oid now).1.success = true ∧
    (allocateSlot ps rid oid now).1.request = some { req with
        allocatedSlotId := some s.id
        allocatedZoneId := some zid
        state := .ALLOCATED
        allocationTime := some now
        isCrossZone := true
        crossZonePenalty := ps.crossZonePenalty } ∧
    getRequest (allocateSlot ps rid oid now).2 rid = some { req with
        allocatedSlotId := some s.id
        allocatedZoneId := some zid
        state := .ALLOCATED
        allocationTime := some now
        isCrossZone := true
        crossZonePenalty := ps.crossZonePenalty } ∧
    findSlot (allocateSlot ps rid oid now).2 s.id = some { s with isAvailable := false } ∧
    getAvailableSlotsInZone (allocateSlot ps rid oid now).2 zid = rest ∧
    (∀ st, (mkParkingSystem st).crossZonePenalty = 10) := by
  have hid : req.id = rid := by simpa using List.find?_some hreq
  have hzcoh : s.zoneId = zid := mem_avail_zoneId hcoh (by rw [havail]; simp)
  have hcan : canTransition req.state .ALLOCATED = true :=
    (canTransition_allocated req.state).2 hstate
  have hsel := selectTarget_cross post hempty hz hadj hpre havail
  rcases @allocateSlot_success_eq ps rid oid now req zid s rest true
    hreq hcan hsel with ⟨msg, heq⟩
  rw [heq]
  have hreqrec : ({ req with
      allocatedSlotId := some s.id
      allocatedZoneId := some s.zoneId
      state := RequestState.ALLOCATED
      allocationTime := some now
      isCrossZone := true
      crossZonePenalty := if true then ps.crossZonePenalty else 0 } : ParkingRequest)
      = { req with
      allocatedSlotId := some s.id
      allocatedZoneId := some zid
      state := RequestState.ALLOCATED
      allocationTime := some now
      isCrossZone := true
      crossZonePenalty := ps.crossZonePenalty } := by
    simp [hzcoh]
  refine ⟨rfl, by simp [hzcoh], ?_, ?_, ?_, mkParkingSystem_penalty⟩
  · show (putRequest ps.requests _).find? (fun x => x.id == rid) = _
    rw [hreqrec, ← hid]
    simpa using putRequest_find_same ps.requests { req with
      allocatedSlotId := some s.id
      allocatedZoneId := some zid
      state := RequestState.ALLOCATED
      allocationTime := some now
      isCrossZone := true
      crossZonePenalty := ps.crossZonePenalty }
  · have hsmem : s ∈ allSlots ps := (mem_avail_props (by rw [havail]; simp)).1
    have hmk : markFirstAvailableInZone
        { ps with operationHistory :=
            { id := oid, requestId := req.id, slotId := s.id,
              previousSlotState := s.isAvailable,
              previousRequestState := req.state, timestamp := now } :: ps.operationHistory }
        zid
        = setSlotAvailability
            { ps with operationHistory :=
                { id := oid, requestId := req.id, slotId := s.id,
                  previousSlotState := s.isAvailable,
                  previousRequestState := req.state, timestamp := now } :: ps.operationHistory }
            s.id false :=
      mark_eq_setSlot hnd havail
    show findSlot (markFirstAvailableInZone _ zid) s.id = _
    rw [hmk]
    exact findSlot_setSlotAvailability_same (findSlot_self_of_nodup hnd hsmem)
  · show getAvailableSlotsInZone (markFirstAvailableInZone _ zid) zid = rest
    exact mark_avail havail

/-- Witness for C2 on `wSysFull` (zone `zone-a` full, adjacent `zone-b`
has one free slot). -/
theorem C2_witness :
    (allocateSlot wSysFull "r1" "op-1" 7).1.success = true ∧
    (allocateSlot wSysFull "r1" "op-1" 7).1.request = some { wReq1 with
        allocatedSlotId := some "slot-b1-1"
        allocatedZoneId := some "zone-b"
        state := .ALLOCATED
        allocationTime := some 7
        isCrossZone := true
        crossZonePenalty := 10 } ∧
    getRequest (allocateSlot wSysFull "r1" "op-1" 7).2 "r1" = some { wReq1 with
        allocatedSlotId := some "slot-b1-1"
        allocatedZoneId := some "zone-b"
        state := .ALLOCATED
        allocationTime := some 7
        isCrossZone := true
        crossZonePenalty := 10 } ∧
    findSlot (allocateSlot wSysFull "r1" "op-1" 7).2 "slot-b1-1"
      = some { wSlotB1 with isAvailable := false } ∧
    getAvailableSlotsInZone (allocateSlot wSysFull "r1" "op-1" 7).2 "zone-b" = [] ∧
    (∀ st, (mkParkingSystem st).crossZonePenalty = 10) :=
  @C2_allocate_cross_zone wSysFull "r1" "op-1" 7 wReq1 wZoneAFull [] "zone-b" [] wSlotB1 []
    (by decide) (by decide) (by decide) (by decide) (by decide) (by decide) (by decide)
    (by decide) (by decide)

/-! ### C5 -/

/-- C5: any operation whose target state is not allowed by the transition
table from the request's current state (allocate targets `ALLOCATED`,
occupy `OCCUPIED`, release `RELEASED`, cancel `CANCELLED`;
`canTransition` is exactly the table, whose rows are restated below)
fails with the `InvalidTransition` message naming both states and
returns the system unchanged (hence the request, every slot's
availability and the operation log are unchanged); in particular release
on an `ALLOCATED` request fails and the request remains `ALLOCATED`. -/
theorem C5_invalid_transition {ps : ParkingSystem} {rid oid : String} {now : Nat}
    {req : ParkingRequest} (hreq : getRequest ps rid = some req) :
    (canTransition req.state .ALLOCATED = false →
      allocateSlot ps rid oid now
        = ({ success := false, message := invalidTransitionMsg req.state .ALLOCATED,
             request := none }, ps)) ∧
    (canTransition req.state .OCCUPIED = false →
      occupySlot ps rid now
        = ({ success := false, message := invalidTransitionMsg req.state .OCCUPIED,
             request := none }, ps)) ∧
    (canTransition req.state .RELEASED = false →
      releaseSlot ps rid now
        = ({ success := false, message := invalidTransitionMsg req.state .RELEASED,
             request := none }, ps)) ∧
    (canTransition req.state .CANCELLED = false →
      cancelRequest ps rid
        = ({ success := false, message := invalidTransitionMsg req.state .CANCELLED,
             request := none }, ps)) ∧
    (req.state = .ALLOCATED →
      releaseSlot ps rid now
        = ({ success := false, message := invalidTransitionMsg .ALLOCATED .RELEASED,
             request := none }, ps) ∧
      getRequest (releaseSlot ps rid now).2 rid = some req) ∧
    (VALID_TRANSITIONS .REQUESTED = [.ALLOCATED, .CANCELLED] ∧
     VALID_TRANSITIONS .ALLOCATED = [.OCCUPIED, .CANCELLED] ∧
     VALID_TRANSITIONS .OCCUPIED = [.RELEASED] ∧
     VALID_TRANSITIONS .RELEASED = [] ∧
     VALID_TRANSITIONS .CANCELLED = []) := by
  refine ⟨fun hcan => allocateSlot_invalid hreq hcan,
    fun hcan => occupySlot_invalid hreq hcan,
    fun hcan => releaseSlot_invalid hreq hcan,
    fun hcan => cancelRequest_invalid hreq hcan,
    fun hstate => ?_, rfl, rfl, rfl, rfl, rfl⟩
  have hcan : canTransition req.state .RELEASED = false := by rw [hstate]; rfl
  have heq := @releaseSlot_invalid ps rid now req hreq hcan
  rw [hstate] at heq
  exact ⟨heq, by rw [heq]; exact hreq⟩

/-- A request already holding `slot-a1-1` in `ALLOCATED` state. -/
def wReqAlloc : ParkingRequest :=
  { wReq1 with
    state := .ALLOCATED
    allocatedSlotId := some "slot-a1-1"
    allocatedZoneId := some "zone-a"
    allocationTime := some 5 }

/-- `wSys` after the allocation of `slot-a1-1` to `r1`. -/
def wSysAlloc : ParkingSystem :=
  { zones := [{ wZoneA with
      areas := [{ id := "area-a1", name := "Area A1", zoneId := "zone-a",
                  slots := [{ wSlotA1 with isAvailable := false }, wSlotA2] }] }, wZoneB]
    vehicles := []
    requests := [wReqAlloc]
    operationHistory := [{ id := "op-1", requestId := "r1", slotId := "slot-a1-1",
                           previousSlotState := true, previousRequestState := .REQUESTED,
                           timestamp := 5 }]
    pendingRequests := ["r1"]
    crossZonePenalty := 10 }

/-- Witness for C5: releasing (and re-allocating) an `ALLOCATED` request
fails with `InvalidTransition` and leaves the system unchanged. -/
theorem C5_witness :
    releaseSlot wSysAlloc "r1" 9
      = ({ success := false, message := invalidTransitionMsg .ALLOCATED .RELEASED,
           request := none }, wSysAlloc) ∧
    getRequest (releaseSlot wSysAlloc "r1" 9).2 "r1" = some wReqAlloc ∧
    allocateSlot wSysAlloc "r1" "op-2" 9
      = ({ success := false, message := invalidTransitionMsg .ALLOCATED .ALLOCATED,
           request := none }, wSysAlloc) := by
  have h := @C5_invalid_transition wSysAlloc "r1" "op-2" 9 wReqAlloc (by decide)
  exact ⟨(h.2.2.2.2.1 rfl).1, (h.2.2.2.2.1 rfl).2, h.1 (by decide)⟩

/-! ### C6 -/

/-- C6: for a `REQUESTED` request whose requested zone has no available
slot and whose zone's stored adjacency list yields no available slot
either, allocate returns the `NoAvailableSlots` failure and the system is
returned unchanged: the request keeps all its fields, no slot's
availability changes, and no entry is appended to the rollback log. -/
theorem C6_no_available_slots {ps : ParkingSystem} {rid oid : String} {now : Nat}
    {req : ParkingRequest}
    (hreq : getRequest ps rid = some req)
    (hstate : req.state = .REQUESTED)
    (hempty : getAvailableSlotsInZone ps req.requestedZoneId = [])
    (hadj : ∀ z, findZone ps req.requestedZoneId = some z →
      ∀ zid ∈ z.adjacentZones, getAvailableSlotsInZone ps zid = []) :
    allocateSlot ps rid oid now
      = ({ success := false
           message := "No available slots in requested zone or adjacent zones"
           request := none }, ps) := by
  have hcan : canTransition req.state .ALLOCATED = true :=
    (canTransition_allocated req.state).2 hstate
  have hsel : selectTarget ps req = none := by
    cases hz : findZone ps req.requestedZoneId with
    | none => exact selectTarget_none_no_zone hempty hz
    | some z => exact selectTarget_none_all_empty hempty hz (hadj z hz)
  exact allocateSlot_noslots hreq hcan hsel

/-- `wZoneB` with its only slot occupied. -/
def wZoneBFull : Zone :=
  { id := "zone-b", name := "Zone B", adjacentZones := ["zone-a"],
    areas := [{ id := "area-b1", name := "Area B1", zoneId := "zone-b",
                slots := [{ wSlotB1 with isAvailable := false }] }] }

/-- Both zones fully occupied. -/
def wSysAllFull : ParkingSystem :=
  { zones := [wZoneAFull, wZoneBFull], vehicles := [], requests := [wReq1],
    operationHistory := [], pendingRequests := ["r1"], crossZonePenalty := 10 }

/-- Witness for C6 on a topology where the requested zone and its only
adjacent zone are fully occupied. -/
theorem C6_witness :
    allocateSlot wSysAllFull "r1" "op-1" 3
      = ({ success := false
           message := "No available slots in requested zone or adjacent zones"
           request := none }, wSysAllFull) :=
  @C6_no_available_slots wSysAllFull "r1" "op-1" 3 wReq1
    (by decide) (by decide) (by decide) (by decide)

/-! ### C7 -/

/-- A request asking for a zone id that is not in the topology. -/
def wReqGhost : ParkingRequest :=
  { wReq1 with id := "rg", requestedZoneId := "zone-x" }

def wSysGhost : ParkingSystem :=
  { zones := [wZoneA, wZoneB], vehicles := [], requests := [wReqGhost],
    operationHistory := [], pendingRequests := ["rg"], crossZonePenalty := 10 }

/-- C7 counterexample: the Topology Store's available-slots query on an
unknown zone id returns the empty list (its result type has no failure
channel at all), and allocation for a request naming an unknown zone
reports `NoAvailableSlots`, not `NotFound` — contradicting the claim that
the available-slots query surfaces `NotFound` rather than an empty
result. -/
theorem C7_counterexample :
    findZone wSysGhost "zone-x" = none ∧
    getAvailableSlotsInZone wSysGhost "zone-x" = [] ∧
    getTotalSlotsInZone wSysGhost "zone-x" = 0 ∧
    (allocateSlot wSysGhost "rg" "op-1" 0).1.success = false ∧
    (allocateSlot wSysGhost "rg" "op-1" 0).1.message
      = "No available slots in requested zone or adjacent zones" := by
  refine ⟨by decide, by decide, by decide, ?_, ?_⟩ <;>
    rw [@allocateSlot_noslots wSysGhost "rg" "op-1" 0 wReqGhost (by decide) (by decide)
      (selectTarget_none_no_zone (by decide) (by decide))]

/-- C7 amended: unknown zone ids are silently treated as empty by the
Topology Store queries — `getAvailableSlotsInZone` returns `[]`,
`totalSlotsInZone` returns 0 — and allocation for a `REQUESTED` request
naming an unknown zone fails with `NoAvailableSlots` (never a zone-level
`NotFound`), leaving the system unchanged. -/
theorem C7_amended_unknown_zone {ps : ParkingSystem} {zid : String}
    (h : findZone ps zid = none) :
    getAvailableSlotsInZone ps zid = [] ∧
    getTotalSlotsInZone ps zid = 0 ∧
    (∀ rid oid now req, getRequest ps rid = some req → req.requestedZoneId = zid →
      req.state = .REQUESTED →
      allocateSlot ps rid oid now
        = ({ success := false
             message := "No available slots in requested zone or adjacent zones"
             request := none }, ps)) := by
  have hav : getAvailableSlotsInZone ps zid = [] := getAvail_none_of_no_zone h
  refine ⟨hav, by simp [getTotalSlotsInZone, h], ?_⟩
  intro rid oid now req hreq hzone hstate
  have hcan : canTransition req.state .ALLOCATED = true :=
    (canTransition_allocated req.state).2 hstate
  have hempty : getAvailableSlotsInZone ps req.requestedZoneId = [] := by
    rw [hzone]; exact hav
  exact allocateSlot_noslots hreq hcan
    (selectTarget_none_no_zone hempty (by rw [hzone]; exact h))

/-- Witness for the amended C7 on `wSysGhost`. -/
theorem C7_amended_witness :
    getAvailableSlotsInZone wSysGhost "zone-x" = [] ∧
    getTotalSlotsInZone wSysGhost "zone-x" = 0 ∧
    allocateSlot wSysGhost "rg" "op-1" 0
      = ({ success := false
           message := "No available slots in requested zone or adjacent zones"
           request := none }, wSysGhost) := by
  have h := @C7_amended_unknown_zone wSysGhost "zone-x" (by decide)
  exact ⟨h.1, h.2.1, h.2.2 "rg" "op-1" 0 wReqGhost (by decide) (by decide) (by decide)⟩

/-! ### C9 -/

theorem lookup_map_by_id (g : String → ℚ) :
    ∀ (zs : List Zone) (zid : String) (u : ℚ),
      (zs.map (fun z => (z.id, g z.id))).lookup zid = some u → u = g zid := by
  intro zs
  induction zs with
  | nil => intro zid u h; simp [List.lookup] at h
  | cons z t ih =>
    intro zid u h
    by_cases h1 : zid = z.id
    · subst h1
      simp only [List.map_cons, List.lookup, beq_self_eq_true, Option.some.injEq] at h
      exact h.symm
    · have hbeq : (zid == z.id) = false := by simp [h1]
      simp only [List.map_cons, List.lookup, hbeq] at h
      exact ih zid u h

theorem lookup_map_by_id_mem (g : String → ℚ) :
    ∀ (zs : List Zone) (z : Zone), z ∈ zs →
      ∃ u, (zs.map (fun x => (x.id, g x.id))).lookup z.id = some u := by
  intro zs
  induction zs with
  | nil => intro z hz; simp at hz
  | cons z0 t ih =>
    intro z hz
    by_cases h1 : z.id = z0.id
    · exact ⟨g z0.id, by simp [List.lookup, h1]⟩
    · rcases List.mem_cons.1 hz with h | h
      · exact absurd (h ▸ rfl) h1
      · rcases ih z h with ⟨u, hu⟩
        have hbeq : (z.id == z0.id) = false := by simp [h1]
        exact ⟨u, by simp only [List.map_cons, List.lookup, hbeq]; exact hu⟩

/-- C9: for every zone of the loaded topology the analytics utilization
record contains an entry for the zone's id, and every entry equals
`100 × (total − available) / total` (exact rational arithmetic), and `0`
when the zone has no slots. -/
theorem C9_zone_utilization (ps : ParkingSystem) :
    (∀ zid u, (getAnalyticsZoneUtilization ps).lookup zid = some u →
      u = if getTotalSlotsInZone ps zid = 0 then 0
          else 100 * (((getTotalSlotsInZone ps zid : ℚ)
              - ((getAvailableSlotsInZone ps zid).length : ℚ))
            / (getTotalSlotsInZone ps zid : ℚ))) ∧
    (∀ z ∈ ps.zones, ∃ u, (getAnalyticsZoneUtilization ps).lookup z.id = some u) := by
  constructor
  · intro zid u hu
    have hval := lookup_map_by_id
      (fun zid => if getTotalSlotsInZone ps zid > 0 then
          (((getTotalSlotsInZone ps zid : ℚ)
            - (((getAvailableSlotsInZone ps zid).length : Nat) : ℚ))
            / (getTotalSlotsInZone ps zid : ℚ)) * 100
        else 0) ps.zones zid u hu
    rw [hval]
    by_cases ht : getTotalSlotsInZone ps zid = 0
    · simp [ht]
    · have hpos : 0 < getTotalSlotsInZone ps zid := Nat.pos_of_ne_zero ht
      simp only [hpos, if_true, ht, if_false]
      ring
  · intro z hz
    exact lookup_map_by_id_mem
      (fun zid => if getTotalSlotsInZone ps zid > 0 then
          (((getTotalSlotsInZone ps zid : ℚ)
            - (((getAvailableSlotsInZone ps zid).length : Nat) : ℚ))
            / (getTotalSlotsInZone ps zid : ℚ)) * 100
        else 0) ps.zones z hz

/-- Witness for C9: in `wSysFull`, zone `zone-a` (2 slots, none free) has
utilization 100 and zone `zone-b` (1 slot, free) has utilization 0. -/
theorem C9_witness :
    (∀ u, (getAnalyticsZoneUtilization wSysFull).lookup "zone-a" = some u → u = 100) ∧
    (∃ u, (getAnalyticsZoneUtilization wSysFull).lookup "zone-a" = some u) := by
  have h := C9_zone_utilization wSysFull
  constructor
  · intro u hu
    have := h.1 "zone-a" u hu
    rw [this]
    norm_num [show getTotalSlotsInZone wSysFull "zone-a" = 2 from by decide,
      show getAvailableSlotsInZone wSysFull "zone-a" = [] from by decide]
  · exact h.2 wZoneAFull (by simp [wSysFull])

/-! ### Rollback toolkit -/

theorem getRequest_setSlotAvailability (ps : ParkingSystem) (sid : String) (v : Bool)
    (rid : String) : getRequest (setSlotAvailability ps sid v) rid = getRequest ps rid := by
  unfold getRequest
  rw [(setSlotAvailability_components ps sid v).1]

theorem undoOne_operationHistory (ps : ParkingSystem) (operation : AllocationOperation) :
    (undoOne ps operation).operationHistory = ps.operationHistory := by
  simp only [undoOne]
  cases h : getRequest (setSlotAvailability ps operation.slotId operation.previousSlotState)
      operation.requestId with
  | none => exact (setSlotAvailability_components ps _ _).2.1
  | some r =>
    show (setSlotAvailability ps operation.slotId operation.previousSlotState).operationHistory
      = ps.operationHistory
    exact (setSlotAvailability_components ps _ _).2.1

theorem popOne_empty {ps : ParkingSystem} (h : ps.operationHistory = []) : popOne ps = ps := by
  unfold popOne
  split
  · rfl
  · rename_i heq
    rw [h] at heq
    exact absurd heq (by simp)

theorem popOne_cons {ps : ParkingSystem} {e : AllocationOperation}
    {rest : List AllocationOperation} (h : ps.operationHistory = e :: rest) :
    popOne ps = undoOne { ps with operationHistory := rest } e := by
  unfold popOne
  split
  · rename_i heq
    rw [h] at heq
    exact absurd heq (by simp)
  · rename_i e' rest' heq
    rw [h] at heq
    obtain ⟨he, hr⟩ : e = e' ∧ rest = rest' := by
      constructor <;> [exact (List.cons.injEq _ _ _ _ ▸ heq).1;
        exact (List.cons.injEq _ _ _ _ ▸ heq).2]
    rw [← he, ← hr]

theorem popOne_log {ps : ParkingSystem} {e : AllocationOperation}
    {rest : List AllocationOperation} (h : ps.operationHistory = e :: rest) :
    (popOne ps).operationHistory = rest := by
  rw [popOne_cons h, undoOne_operationHistory]

theorem rollbackAux_eq (k : Nat) (ps : ParkingSystem) :
    rollbackAux k ps = (min k ps.operationHistory.length, popOne^[k] ps) := by
  induction k generalizing ps with
  | zero => simp [rollbackAux]
  | succ k ih =>
    cases h : ps.operationHistory with
    | nil =>
      have hfix : popOne^[k + 1] ps = ps := Function.iterate_fixed (popOne_empty h) _
      simp only [rollbackAux, h]
      simp [hfix, h]
    | cons e rest =>
      have hpop : undoOne { ps with operationHistory := rest } e = popOne ps :=
        (popOne_cons h).symm
      simp only [rollbackAux, h]
      rw [hpop, ih (popOne ps), popOne_log h]
      rw [Function.iterate_succ_apply]
      simp [h, Nat.succ_min_succ]

theorem rollback_eq (ps : ParkingSystem) (k : Nat) :
    (rollback ps k).1.success = true ∧
    (rollback ps k).1.rolledBack = min k ps.operationHistory.length ∧
    (rollback ps k).2 = popOne^[k] ps := by
  unfold rollback
  rw [rollbackAux_eq]
  exact ⟨rfl, rfl, rfl⟩

theorem undoOne_findSlot_same {ps : ParkingSystem} {operation : AllocationOperation}
    {s : ParkingSlot} (hs : findSlot ps operation.slotId = some s) :
    findSlot (undoOne ps operation) operation.slotId
      = some { s with isAvailable := operation.previousSlotState } := by
  simp only [undoOne]
  cases hr : getRequest (setSlotAvailability ps operation.slotId operation.previousSlotState)
      operation.requestId with
  | none => exact findSlot_setSlotAvailability_same hs
  | some r0 => exact findSlot_setSlotAvailability_same hs

theorem undoOne_findSlot_other {ps : ParkingSystem} {operation : AllocationOperation}
    {sid : String} (hne : sid ≠ operation.slotId) :
    findSlot (undoOne ps operation) sid = findSlot ps sid := by
  simp only [undoOne]
  cases hr : getRequest (setSlotAvailability ps operation.slotId operation.previousSlotState)
      operation.requestId with
  | none => exact findSlot_setSlotAvailability_other hne
  | some r0 => exact findSlot_setSlotAvailability_other hne

theorem undoOne_getRequest {ps : ParkingSystem} {operation : AllocationOperation}
    {r : ParkingRequest} (hreq : getRequest ps operation.requestId = some r) :
    getRequest (undoOne ps operation) operation.requestId = some (
      if operation.previousRequestState = .REQUESTED then
        { r with
          state := operation.previousRequestState
          allocatedSlotId := none
          allocatedZoneId := none
          allocationTime := none
          isCrossZone := false
          crossZonePenalty := 0 }
      else { r with state := operation.previousRequestState }) := by
  simp only [undoOne]
  have hr1 : getRequest (setSlotAvailability ps operation.slotId operation.previousSlotState)
      operation.requestId = some r := by
    rw [getRequest_setSlotAvailability]; exact hreq
  simp only [hr1]
  have hid : r.id = operation.requestId := by simpa using List.find?_some hreq
  by_cases hprev : operation.previousRequestState = .REQUESTED
  · rw [if_pos hprev]
    show (putRequest _ _).find? (fun x => x.id == operation.requestId) = _
    rw [← hid]
    simpa using putRequest_find_same
      (setSlotAvailability ps operation.slotId operation.previousSlotState).requests
      { r with
        state := operation.previousRequestState
        allocatedSlotId := none
        allocatedZoneId := none
        allocationTime := none
        isCrossZone := false
        crossZonePenalty := 0 }
  · rw [if_neg hprev]
    show (putRequest _ _).find? (fun x => x.id == operation.requestId) = _
    rw [← hid]
    simpa using putRequest_find_same
      (setSlotAvailability ps operation.slotId operation.previousSlotState).requests
      { r with state := operation.previousRequestState }

theorem popOne_char {ps : ParkingSystem} {e : AllocationOperation}
    {rest : List AllocationOperation} (h : ps.operationHistory = e :: rest) :
    (popOne ps).operationHistory = rest ∧
    (∀ s, findSlot ps e.slotId = some s →
      findSlot (popOne ps) e.slotId = some { s with isAvailable := e.previousSlotState }) ∧
    (∀ sid, sid ≠ e.slotId → findSlot (popOne ps) sid = findSlot ps sid) ∧
    (∀ r, getRequest ps e.requestId = some r →
      getRequest (popOne ps) e.requestId = some (
        if e.previousRequestState = .REQUESTED then
          { r with
            state := e.previousRequestState
            allocatedSlotId := none
            allocatedZoneId := none
            allocationTime := none
            isCrossZone := false
            crossZonePenalty := 0 }
        else { r with state := e.previousRequestState })) := by
  rw [popOne_cons h]
  refine ⟨undoOne_operationHistory _ _, ?_, ?_, ?_⟩
  · intro s hs
    exact undoOne_findSlot_same hs
  · intro sid hne
    exact undoOne_findSlot_other hne
  · intro r hreq
    exact undoOne_getRequest hreq

/-! ### C4 -/

/-- C4: `rollback(k)` always reports success, returning exactly
`min(k, log size)` — the count actually undone, the partial count when
`k` exceeds the log size.  The resulting state is `k` applications of the
single-pop step `popOne`, which consumes records newest first (last-in
first-out: allocation prepends its record to the modelled log), and each
pop restores the recorded slot's `available` to the recorded pre-value
and the recorded request's state to the recorded pre-operation state,
clearing `allocatedSlotId`, `allocatedZoneId`, `allocationTime`,
`isCrossZone` and `crossZonePenalty` when that pre-state is
`REQUESTED`. -/
theorem C4_rollback (ps : ParkingSystem) (k : Nat) :
    (rollback ps k).1.success = true ∧
    (rollback ps k).1.rolledBack = min k ps.operationHistory.length ∧
    (rollback ps k).2 = popOne^[k] ps ∧
    (∀ e rest, ps.operationHistory = e :: rest →
      (popOne ps).operationHistory = rest ∧
      (∀ s, findSlot ps e.slotId = some s →
        findSlot (popOne ps) e.slotId = some { s with isAvailable := e.previousSlotState }) ∧
      (∀ r, getRequest ps e.requestId = some r →
        getRequest (popOne ps) e.requestId = some (
          if e.previousRequestState = .REQUESTED then
            { r with
              state := e.previousRequestState
              allocatedSlotId := none
              allocatedZoneId := none
              allocationTime := none
              isCrossZone := false
              crossZonePenalty := 0 }
          else { r with state := e.previousRequestState }))) := by
  rcases rollback_eq ps k with ⟨h1, h2, h3⟩
  refine ⟨h1, h2, h3, ?_⟩
  intro e rest h
  rcases popOne_char h with ⟨ha, hb, _, hd⟩
  exact ⟨ha, hb, hd⟩

/-- Witness for C4 on `wSysAlloc` (one logged allocation): asking to
undo 3 operations undoes 1, reports success, frees the slot and returns
the request to its pre-allocation record. -/
theorem C4_witness :
    (rollback wSysAlloc 3).1.success = true ∧
    (rollback wSysAlloc 3).1.rolledBack = 1 ∧
    findSlot (popOne wSysAlloc) "slot-a1-1" = some wSlotA1 ∧
    getRequest (popOne wSysAlloc) "r1" = some wReq1 := by
  have h := C4_rollback wSysAlloc 3
  have hc := h.2.2.2
    { id := "op-1", requestId := "r1", slotId := "slot-a1-1",
      previousSlotState := true, previousRequestState := .REQUESTED, timestamp := 5 }
    [] rfl
  refine ⟨h.1, ?_, ?_, ?_⟩
  · rw [h.2.1]; decide
  · exact hc.2.1 { wSlotA1 with isAvailable := false } (by decide)
  · exact hc.2.2 wReqAlloc (by decide)

/-! ### C10 -/

/-- C10: rollback applies the recorded restoration unconditionally on the
request's current state.  For a logged allocation record (pre-operation
state `REQUESTED`), popping it — whatever state the request has since
advanced to (`OCCUPIED`, `RELEASED`, `CANCELLED`, ...) — restores the
recorded slot's availability to the recorded pre-value, resets the
request to `REQUESTED` and clears the allocation fields, while
`occupiedTime` and `releaseTime` retain whatever values were set since
the allocation (the resulting record keeps `r.occupiedTime` and
`r.releaseTime`). -/
theorem C10_rollback_unconditional {ps : ParkingSystem} {e : AllocationOperation}
    {rest : List AllocationOperation} {r : ParkingRequest} {s : ParkingSlot}
    (hlog : ps.operationHistory = e :: rest)
    (hprev : e.previousRequestState = .REQUESTED)
    (hreq : getRequest ps e.requestId = some r)
    (hslot : findSlot ps e.slotId = some s) :
    (rollback ps 1).2.operationHistory = rest ∧
    findSlot (rollback ps 1).2 e.slotId = some { s with isAvailable := e.previousSlotState } ∧
    getRequest (rollback ps 1).2 e.requestId = some
      { r with
        state := .REQUESTED
        allocatedSlotId := none
        allocatedZoneId := none
        allocationTime := none
        isCrossZone := false
        crossZonePenalty := 0 } := by
  have h3 := (rollback_eq ps 1).2.2
  rcases popOne_char hlog with ⟨ha, hb, _, hd⟩
  have hiter : popOne^[1] ps = popOne ps := rfl
  rw [h3, hiter]
  refine ⟨ha, hb s hslot, ?_⟩
  have hr := hd r hreq
  rw [if_pos hprev] at hr
  rw [hr, hprev]

/-- A request that advanced to `OCCUPIED` after the logged allocation. -/
def wReqOcc : ParkingRequest :=
  { wReqAlloc with state := .OCCUPIED, occupiedTime := some 6 }

def wSysOcc : ParkingSystem :=
  { wSysAlloc with requests := [wReqOcc] }

/-- Witness for C10: rolling back the allocation of an `OCCUPIED` request
still frees the slot and resets the request to `REQUESTED`, retaining the
`occupiedTime` set since the allocation. -/
theorem C10_witness :
    (rollback wSysOcc 1).2.operationHistory = [] ∧
    findSlot (rollback wSysOcc 1).2 "slot-a1-1" = some wSlotA1 ∧
    getRequest (rollback wSysOcc 1).2 "r1"
      = some { wReq1 with occupiedTime := some 6 } := by
  have h := @C10_rollback_unconditional wSysOcc
    { id := "op-1", requestId := "r1", slotId := "slot-a1-1",
      previousSlotState := true, previousRequestState := .REQUESTED, timestamp := 5 }
    [] wReqOcc { wSlotA1 with isAvailable := false }
    (by decide) (by decide) (by decide) (by decide)
  exact ⟨h.1, h.2.1, h.2.2⟩

/-! ### Component lemmas for the round-trip argument -/

theorem ParkingSystem.ext_of {a b : ParkingSystem} (hz : a.zones = b.zones)
    (hv : a.vehicles = b.vehicles) (hr : a.requests = b.requests)
    (ho : a.operationHistory = b.operationHistory)
    (hp : a.pendingRequests = b.pendingRequests)
    (hc : a.crossZonePenalty = b.crossZonePenalty) : a = b := by
  cases a; cases b
  simp_all

theorem setSlotAvailability_zones_congr {ps1 ps2 : ParkingSystem}
    (h : ps1.zones = ps2.zones) (sid : String) (v : Bool) :
    (setSlotAvailability ps1 sid v).zones = (setSlotAvailability ps2 sid v).zones := by
  unfold setSlotAvailability
  rw [h]
  cases setSlotInZones sid v ps2.zones with
  | none => simpa using h
  | some zs => rfl

theorem undoOne_zones (ps : ParkingSystem) (operation : AllocationOperation) :
    (undoOne ps operation).zones
      = (setSlotAvailability ps operation.slotId operation.previousSlotState).zones := by
  simp only [undoOne]
  cases getRequest (setSlotAvailability ps operation.slotId operation.previousSlotState)
      operation.requestId with
  | none => rfl
  | some r => rfl

theorem undoOne_vehicles (ps : ParkingSystem) (operation : AllocationOperation) :
    (undoOne ps operation).vehicles = ps.vehicles := by
  simp only [undoOne]
  cases getRequest (setSlotAvailability ps operation.slotId operation.previousSlotState)
      operation.requestId with
  | none => exact (setSlotAvailability_components ps _ _).2.2.2.1
  | some r => exact (setSlotAvailability_components ps _ _).2.2.2.1

theorem undoOne_pending (ps : ParkingSystem) (operation : AllocationOperation) :
    (undoOne ps operation).pendingRequests = ps.pendingRequests := by
  simp only [undoOne]
  cases getRequest (setSlotAvailability ps operation.slotId operation.previousSlotState)
      operation.requestId with
  | none => exact (setSlotAvailability_components ps _ _).2.2.1
  | some r => exact (setSlotAvailability_components ps _ _).2.2.1

theorem undoOne_penalty (ps : ParkingSystem) (operation : AllocationOperation) :
    (undoOne ps operation).crossZonePenalty = ps.crossZonePenalty := by
  simp only [undoOne]
  cases getRequest (setSlotAvailability ps operation.slotId operation.previousSlotState)
      operation.requestId with
  | none => exact (setSlotAvailability_components ps _ _).2.2.2.2
  | some r => exact (setSlotAvailability_components ps _ _).2.2.2.2

theorem undoOne_requests (ps : ParkingSystem) (operation : AllocationOperation) :
    (undoOne ps operation).requests
      = (match getRequest ps operation.requestId with
        | none => ps.requests
        | some r => putRequest ps.requests (
            if operation.previousRequestState = .REQUESTED then
              { r with
                state := operation.previousRequestState
                allocatedSlotId := none
                allocatedZoneId := none
                allocationTime := none
                isCrossZone := false
                crossZonePenalty := 0 }
            else { r with state := operation.previousRequestState })) := by
  simp only [undoOne, getRequest_setSlotAvailability]
  cases getRequest ps operation.requestId with
  | none => exact (setSlotAvailability_components ps _ _).1
  | some r =>
    show putRequest (setSlotAvailability ps operation.slotId operation.previousSlotState).requests
        _ = _
    rw [(setSlotAvailability_components ps _ _).1]

/-! ### C8 -/

/-- Every `REQUESTED` request carries clean allocation fields, as is the
case in any state reachable from a loaded topology. -/
def CleanRequested (ps : ParkingSystem) : Prop :=
  ∀ r ∈ ps.requests, r.state = .REQUESTED →
    r.allocatedSlotId = none ∧ r.allocatedZoneId = none ∧ r.allocationTime = none ∧
    r.isCrossZone = false ∧ r.crossZonePenalty = 0

instance (ps : ParkingSystem) : Decidable (CleanRequested ps) := by
  unfold CleanRequested; infer_instance

/-- One façade `allocate` call with its injected operation id and clock
reading. -/
def allocStep (ps : ParkingSystem) (st : String × String × Nat) : ParkingSystem :=
  (allocateSlot ps st.1 st.2.1 st.2.2).2

/-- Run a sequence of `allocate` calls. -/
def applyAllocs (ps : ParkingSystem) (steps : List (String × String × Nat)) : ParkingSystem :=
  steps.foldl allocStep ps

/-- All the allocate calls of the sequence succeed, each against the
state produced by its predecessors. -/
def allocsSucceed : ParkingSystem → List (String × String × Nat) → Bool
  | _, [] => true
  | ps, st :: rest =>
    (allocateSlot ps st.1 st.2.1 st.2.2).1.success && allocsSucceed (allocStep ps st) rest

theorem allocateSlot_success_inv {ps : ParkingSystem} {rid oid : String} {now : Nat}
    (h : (allocateSlot ps rid oid now).1.success = true) :
    ∃ req zid s rest cross, getRequest ps rid = some req ∧
      canTransition req.state .ALLOCATED = true ∧
      selectTarget ps req = some (zid, s :: rest, cross) := by
  cases hreq : getRequest ps rid with
  | none => rw [allocateSlot_notfound hreq] at h; simp at h
  | some req =>
    cases hcan : canTransition req.state .ALLOCATED with
    | false => rw [allocateSlot_invalid hreq hcan] at h; simp at h
    | true =>
      cases hsel : selectTarget ps req with
      | none => rw [allocateSlot_noslots hreq hcan hsel] at h; simp at h
      | some x =>
        obtain ⟨zid, slots, cross⟩ := x
        cases slots with
        | nil => exact absurd rfl (selectTarget_some_props hsel).2
        | cons s rest => exact ⟨req, zid, s, rest, cross, rfl, hcan, hsel⟩

theorem popOne_allocStep {ps : ParkingSystem} {rid oid : String} {now : Nat}
    {req : ParkingRequest} {zid : String} {s : ParkingSlot} {rest : List ParkingSlot}
    {cross : Bool}
    (hnd : SlotIdsNodup ps)
    (hreq : getRequest ps rid = some req)
    (hcan : canTransition req.state .ALLOCATED = true)
    (hsel : selectTarget ps req = some (zid, s :: rest, cross))
    (hclean : req.allocatedSlotId = none ∧ req.allocatedZoneId = none ∧
      req.allocationTime = none ∧ req.isCrossZone = false ∧ req.crossZonePenalty = 0) :
    popOne (allocateSlot ps rid oid now).2 = ps := by
  rcases @allocateSlot_success_eq ps rid oid now req zid s rest cross hreq hcan hsel
    with ⟨msg, heq⟩
  have havail : getAvailableSlotsInZone ps zid = s :: rest := (selectTarget_some_props hsel).1
  have hsmem : s ∈ allSlots ps := (mem_avail_props (by rw [havail]; simp)).1
  have hfs : findSlot ps s.id = some s := findSlot_self_of_nodup hnd hsmem
  have hid : req.id = rid := by simpa using List.find?_some hreq
  have hstate : req.state = .REQUESTED := (canTransition_allocated req.state).1 hcan
  obtain ⟨c1, c2, c3, c4, c5⟩ := hclean
  set e0 : AllocationOperation := { id := oid, requestId := req.id, slotId := s.id, previousSlotState := s.isAvailable, previousRequestState := req.state, timestamp := now } with he0
  set ps1 : ParkingSystem := { ps with operationHistory := e0 :: ps.operationHistory } with hps1
  set nr : ParkingRequest := { req with allocatedSlotId := some s.id, allocatedZoneId := some s.zoneId, state := .ALLOCATED, allocationTime := some now, isCrossZone := cross, crossZonePenalty := if cross then ps.crossZonePenalty else 0 } with hnr
  have hmk : markFirstAvailableInZone ps1 zid = setSlotAvailability ps1 s.id false :=
    mark_eq_setSlot hnd havail
  rw [heq, hmk]
  set A : ParkingSystem := setSlotAvailability ps1 s.id false with hA
  set B : ParkingSystem := { A with requests := putRequest ps.requests nr } with hB
  have hfs1 : findSlot ps1 s.id = some s := by rw [hps1]; exact hfs
  have hAcomp := setSlotAvailability_components ps1 s.id false
  rw [← hA] at hAcomp
  have hlog : B.operationHistory = e0 :: ps.operationHistory := by
    rw [hB]
    show A.operationHistory = _
    rw [hAcomp.2.1, hps1]
  rw [popOne_cons hlog]
  set C : ParkingSystem := { B with operationHistory := ps.operationHistory } with hC
  have hCreq : C.requests = putRequest ps.requests nr := by rw [hC, hB]
  have he0rid : e0.requestId = req.id := by rw [he0]
  have he0sid : e0.slotId = s.id := by rw [he0]
  have he0prev : e0.previousRequestState = req.state := by rw [he0]
  have he0slotstate : e0.previousSlotState = s.isAvailable := by rw [he0]
  apply ParkingSystem.ext_of
  · rw [undoOne_zones]
    have h1 : (setSlotAvailability C e0.slotId e0.previousSlotState).zones
        = (setSlotAvailability A e0.slotId e0.previousSlotState).zones := by
      refine setSlotAvailability_zones_congr ?_ _ _
      rw [hC, hB]
    rw [h1]
    rw [he0sid]
    rw [he0slotstate]
    rw [hA]
    rw [set_set_cancel_system hfs1]
  · rw [undoOne_vehicles, hC, hB]
    show A.vehicles = ps.vehicles
    rw [hAcomp.2.2.2.1, hps1]
  · rw [undoOne_requests]
    have hgr : getRequest C e0.requestId = some nr := by
      rw [he0rid]
      show C.requests.find? (fun x => x.id == req.id) = some nr
      rw [hCreq]
      have h6 : nr.id = req.id := by rw [hnr]
      rw [← h6]
      exact putRequest_find_same _ _
    simp only [hgr]
    have h7 : e0.previousRequestState = .REQUESTED := by rw [he0prev]; exact hstate
    rw [if_pos h7]
    have h8 : ({ nr with
        state := e0.previousRequestState
        allocatedSlotId := none
        allocatedZoneId := none
        allocationTime := none
        isCrossZone := false
        crossZonePenalty := 0 } : ParkingRequest) = req := by
      rw [hnr, he0prev]
      obtain ⟨i1, i2, i3, i4, i5, i6, i7, i8, i9, i10, i11, i12⟩ := req
      simp_all
    rw [h8]
    rw [putRequest_putRequest _ _ _ (show req.id = nr.id by rw [hnr])]
    refine putRequest_self _ _ ?_
    rw [hid]
    exact hreq
  · rw [undoOne_operationHistory, hC]
  · rw [undoOne_pending, hC, hB]
    show A.pendingRequests = ps.pendingRequests
    rw [hAcomp.2.2.1, hps1]
  · rw [undoOne_penalty, hC, hB]
    show A.crossZonePenalty = ps.crossZonePenalty
    rw [hAcomp.2.2.2.2, hps1]

theorem markSlots_map_id {l l' : List ParkingSlot} (h : markSlots l = some l') :
    l'.map (·.id) = l.map (·.id) := by
  induction l generalizing l' with
  | nil => simp [markSlots] at h
  | cons x rest ih =>
    by_cases h1 : x.isAvailable
    · simp [markSlots, h1] at h
      simp [← h]
    · simp [markSlots, h1] at h
      rcases h with ⟨r', hr', hl'⟩
      simp [← hl', ih hr']

theorem flatA_markAreas_id {areas a' : List ParkingArea} (h : markAreas areas = some a') :
    (flatA a').map (·.id) = (flatA areas).map (·.id) := by
  have hb := markAreas_map_flat areas
  rw [h] at hb
  exact markSlots_map_id hb.symm

theorem markInZones_slotIds (zid : String) (zs : List Zone) :
    (flatZ (markInZones zid zs)).map (·.id) = (flatZ zs).map (·.id) := by
  induction zs with
  | nil => rfl
  | cons z t ih =>
    have hfl : ∀ (x : Zone) (l : List Zone), flatZ (x :: l) = zoneAllSlots x ++ flatZ l := by
      intro x l; simp [flatZ]
    by_cases h1 : z.id = zid
    · rw [markInZones, if_pos (by simpa using h1)]
      cases hma : markAreas z.areas with
      | none => simp [markZoneFirstAvailable, hma]
      | some a' =>
        rw [hfl, hfl, List.map_append, List.map_append]
        have hz' : zoneAllSlots ((markZoneFirstAvailable z).getD z) = flatA a' := by
          simp [markZoneFirstAvailable, hma, zoneAllSlots, flatA]
        rw [hz', flatA_markAreas_id hma]
        rfl
    · rw [markInZones, if_neg (by simpa using h1)]
      rw [hfl, hfl, List.map_append, List.map_append, ih]

theorem allocateSlot_slotIds (ps : ParkingSystem) (rid oid : String) (now : Nat) :
    (allSlots (allocateSlot ps rid oid now).2).map (·.id)
      = (allSlots ps).map (·.id) := by
  cases hreq : getRequest ps rid with
  | none => rw [allocateSlot_notfound hreq]
  | some req =>
    cases hcan : canTransition req.state .ALLOCATED with
    | false => rw [allocateSlot_invalid hreq hcan]
    | true =>
      cases hsel : selectTarget ps req with
      | none => rw [allocateSlot_noslots hreq hcan hsel]
      | some x =>
        obtain ⟨zid, slots, cross⟩ := x
        cases slots with
        | nil => exact absurd rfl (selectTarget_some_props hsel).2
        | cons s rest =>
          rcases @allocateSlot_success_eq ps rid oid now req zid s rest cross hreq hcan hsel
            with ⟨msg, heq⟩
          rw [heq]
          show (flatZ (markInZones zid ps.zones)).map (·.id) = (flatZ ps.zones).map (·.id)
          exact markInZones_slotIds zid ps.zones

theorem allocStep_nodup {ps : ParkingSystem} {rid oid : String} {now : Nat}
    (h : SlotIdsNodup ps) : SlotIdsNodup (allocateSlot ps rid oid now).2 := by
  unfold SlotIdsNodup at h ⊢
  rw [allocateSlot_slotIds]
  exact h

theorem allocStep_clean {ps : ParkingSystem} {rid oid : String} {now : Nat}
    (h : CleanRequested ps) : CleanRequested (allocateSlot ps rid oid now).2 := by
  cases hreq : getRequest ps rid with
  | none => rw [allocateSlot_notfound hreq]; exact h
  | some req =>
    cases hcan : canTransition req.state .ALLOCATED with
    | false => rw [allocateSlot_invalid hreq hcan]; exact h
    | true =>
      cases hsel : selectTarget ps req with
      | none => rw [allocateSlot_noslots hreq hcan hsel]; exact h
      | some x =>
        obtain ⟨zid, slots, cross⟩ := x
        cases slots with
        | nil => exact absurd rfl (selectTarget_some_props hsel).2
        | cons s rest =>
          rcases @allocateSlot_success_eq ps rid oid now req zid s rest cross hreq hcan hsel
            with ⟨msg, heq⟩
          rw [heq]
          intro r hr hrst
          rcases mem_putRequest _ _ _ hr with h1 | h1
          · subst h1
            exact absurd hrst (by simp)
          · exact h r h1 hrst

theorem rollback_applyAllocs {steps : List (String × String × Nat)} :
    ∀ {ps : ParkingSystem}, SlotIdsNodup ps → CleanRequested ps →
      allocsSucceed ps steps = true →
      popOne^[steps.length] (applyAllocs ps steps) = ps := by
  induction steps with
  | nil => intro ps _ _ _; rfl
  | cons st t ih =>
    intro ps hnd hclean hsucc
    simp only [allocsSucceed, Bool.and_eq_true] at hsucc
    obtain ⟨h1, h2⟩ := hsucc
    have hstep : applyAllocs ps (st :: t) = applyAllocs (allocStep ps st) t := rfl
    rw [hstep, show (st :: t).length = t.length + 1 from rfl, Function.iterate_succ_apply']
    have hn : SlotIdsNodup (allocStep ps st) := allocStep_nodup hnd
    have hc : CleanRequested (allocStep ps st) := allocStep_clean hclean
    rw [ih hn hc h2]
    rcases allocateSlot_success_inv h1 with ⟨req, zid, s, rest, cross, hreq, hcan, hsel⟩
    have hcln := hclean req (List.mem_of_find?_eq_some hreq)
      ((canTransition_allocated req.state).1 hcan)
    exact popOne_allocStep hnd hreq hcan hsel hcln

/-- The C8 counterexample's pre-rollback state: allocate request `r1`,
then occupy it. -/
def wSysPre : ParkingSystem :=
  (occupySlot (allocateSlot wSys "r1" "op-1" 5).2 "r1" 6).2

/-- `wSysPre` after `rollback(1)`. -/
def wSysRB : ParkingSystem :=
  (rollback wSysPre 1).2

/-- C8, counterexample to the claim as stated for *every* state: in the
pre-rollback state `wSysPre` request `r1` is `OCCUPIED`; `rollback(1)`
resets it to the logged pre-allocation state `REQUESTED` and frees the
slot, so re-running the rolled-back allocation is still legal in the
claim's own sense (request `REQUESTED`, slot free) — but the re-run
yields `ALLOCATED`, not the pre-rollback `OCCUPIED`: the round trip does
not restore every request's state fields. -/
theorem C8_counterexample :
    (getRequest wSysPre "r1").map (·.state) = some RequestState.OCCUPIED ∧
    (getRequest wSysRB "r1").map (·.state) = some RequestState.REQUESTED ∧
    (findSlot wSysRB "slot-a1-1").map (·.isAvailable) = some true ∧
    (getRequest (allocateSlot wSysRB "r1" "op-1" 5).2 "r1").map (·.state)
      ≠ (getRequest wSysPre "r1").map (·.state) := by decide

/-- C8, amended: the round trip is an identity exactly when the
rolled-back tail consists of the `k` allocations themselves, with
nothing interleaved — from a state whose slot ids are unique and whose
`REQUESTED` requests carry clean allocation fields (both hold in any
state reachable from a loaded topology), running a sequence of `k`
successful allocate calls, then `rollback(k)`, restores exactly the
pre-allocation state, so re-running the same `k` allocations (with the
same injected ids and clock readings) yields a state identical to the
pre-rollback state — equality of the whole record, hence in particular
of every slot's availability and every request's state fields. -/
theorem C8_rollback_reapply {ps : ParkingSystem} {steps : List (String × String × Nat)}
    (hnd : SlotIdsNodup ps) (hclean : CleanRequested ps)
    (hsucc : allocsSucceed ps steps = true) :
    (rollback (applyAllocs ps steps) steps.length).2 = ps ∧
    applyAllocs (rollback (applyAllocs ps steps) steps.length).2 steps
      = applyAllocs ps steps := by
  have h := (rollback_eq (applyAllocs ps steps) steps.length).2.2
  have hinv := rollback_applyAllocs hnd hclean hsucc
  rw [h, hinv]
  exact ⟨rfl, rfl⟩

/-- Witness for C8: one successful allocation on `wSys`, rolled back and
re-run. -/
theorem C8_witness :
    (rollback (applyAllocs wSys [("r1", "op-1", 5)]) 1).2 = wSys ∧
    applyAllocs (rollback (applyAllocs wSys [("r1", "op-1", 5)]) 1).2 [("r1", "op-1", 5)]
      = applyAllocs wSys [("r1", "op-1", 5)] :=
  @C8_rollback_reapply wSys [("r1", "op-1", 5)] (by decide) (by decide) (by decide)

/-! ### C3: the state invariant, inductively over façade operations -/

/-- A request currently holding a slot. -/
def isActive (r : ParkingRequest) : Prop :=
  r.state = .ALLOCATED ∨ r.state = .OCCUPIED

/-- The strengthened inductive invariant: the claimed properties
(`active_slot` and holder uniqueness, derivable from `active_entry` and
`reqIds`) together with the bookkeeping facts that make them stable
under every façade operation. -/
structure Inv (ps : ParkingSystem) : Prop where
  nodup : SlotIdsNodup ps
  reqIds : (ps.requests.map (·.id)).Nodup
  active_slot : ∀ r ∈ ps.requests, isActive r →
    ∃ sid, r.allocatedSlotId = some sid ∧ r.allocatedZoneId ≠ none ∧
      ∃ s, findSlot ps sid = some s ∧ s.isAvailable = false
  active_entry : ∀ r ∈ ps.requests, isActive r → ∀ sid, r.allocatedSlotId = some sid →
    ∃ e, ps.operationHistory.find? (fun o => o.slotId == sid) = some e ∧ e.requestId = r.id
  log_req : ∀ e ∈ ps.operationHistory,
    ∃ r ∈ ps.requests, r.id = e.requestId ∧ r.state ≠ .REQUESTED
  log_ids : (ps.operationHistory.map (·.requestId)).Nodup
  log_prev : ∀ e ∈ ps.operationHistory,
    e.previousRequestState = .REQUESTED ∧ e.previousSlotState = true
  clean : CleanRequested ps

theorem eq_of_mem_id {l : List ParkingRequest} {r1 r2 : ParkingRequest}
    (hnd : (l.map (·.id)).Nodup) (h1 : r1 ∈ l) (h2 : r2 ∈ l) (h : r1.id = r2.id) :
    r1 = r2 := by
  induction l with
  | nil => simp at h1
  | cons x t ih =>
    rcases List.mem_cons.1 h1 with e1 | e1 <;> rcases List.mem_cons.1 h2 with e2 | e2
    · rw [e1, e2]
    · exfalso
      have hm : r2.id ∈ t.map (·.id) := List.mem_map_of_mem _ e2
      rw [← h, e1] at hm
      exact (List.nodup_cons.1 hnd).1 hm
    · exfalso
      have hm : r1.id ∈ t.map (·.id) := List.mem_map_of_mem _ e1
      rw [h, e2] at hm
      exact (List.nodup_cons.1 hnd).1 hm
    · exact ih (List.nodup_cons.1 hnd).2 e1 e2

theorem mem_putRequest_self (l : List ParkingRequest) (r : ParkingRequest) :
    r ∈ putRequest l r := by
  induction l with
  | nil => simp [putRequest]
  | cons x t ih =>
    by_cases h1 : x.id = r.id
    · simp [putRequest, h1]
    · simp only [putRequest, beq_iff_eq, h1, if_false]
      exact List.mem_cons_of_mem _ ih

theorem not_mem_putRequest_replaced {l : List ParkingRequest} {nr r0 : ParkingRequest}
    (hnd : (l.map (·.id)).Nodup) (hmem : r0 ∈ l) (hideq : r0.id = nr.id) (hne : r0 ≠ nr) :
    r0 ∉ putRequest l nr := by
  induction l with
  | nil => simp at hmem
  | cons x t ih =>
    by_cases h1 : x.id = nr.id
    · have hx : r0 = x := by
        rcases List.mem_cons.1 hmem with e | e
        · exact e
        · exfalso
          have hm : r0.id ∈ t.map (·.id) := List.mem_map_of_mem _ e
          rw [hideq, ← h1] at hm
          exact (List.nodup_cons.1 hnd).1 hm
      simp only [putRequest, beq_iff_eq, h1, if_true]
      intro hc
      rcases List.mem_cons.1 hc with e | e
      · exact hne e
      · have hm : r0.id ∈ t.map (·.id) := List.mem_map_of_mem _ e
        rw [hx] at hm
        exact (List.nodup_cons.1 hnd).1 hm
    · have hr0 : r0 ∈ t := by
        rcases List.mem_cons.1 hmem with e | e
        · exact absurd (e ▸ hideq) h1
        · exact e
      simp only [putRequest, beq_iff_eq, h1, if_false]
      intro hc
      rcases List.mem_cons.1 hc with e | e
      · have hm : r0.id ∈ t.map (·.id) := List.mem_map_of_mem _ hr0
        rw [e] at hm
        exact (List.nodup_cons.1 hnd).1 hm
      · exact ih (List.nodup_cons.1 hnd).2 hr0 e

theorem eq_of_mem_requestId {l : List AllocationOperation} {e1 e2 : AllocationOperation}
    (hnd : (l.map (·.requestId)).Nodup) (h1 : e1 ∈ l) (h2 : e2 ∈ l)
    (h : e1.requestId = e2.requestId) : e1 = e2 := by
  induction l with
  | nil => simp at h1
  | cons x t ih =>
    rcases List.mem_cons.1 h1 with m1 | m1 <;> rcases List.mem_cons.1 h2 with m2 | m2
    · rw [m1, m2]
    · exfalso
      have hm : e2.requestId ∈ t.map (·.requestId) := List.mem_map_of_mem _ m2
      rw [← h, m1] at hm
      exact (List.nodup_cons.1 hnd).1 hm
    · exfalso
      have hm : e1.requestId ∈ t.map (·.requestId) := List.mem_map_of_mem _ m1
      rw [h, m2] at hm
      exact (List.nodup_cons.1 hnd).1 hm
    · exact ih (List.nodup_cons.1 hnd).2 m1 m2

theorem id_not_mem_of_find_none {l : List ParkingRequest} {rid : String}
    (h : l.find? (fun x => x.id == rid) = none) : rid ∉ l.map (·.id) := by
  intro hc
  rcases List.mem_map.1 hc with ⟨r, hr, hre⟩
  have := List.find?_eq_none.1 h r hr
  simp [hre] at this

theorem allSlots_congr {ps1 ps2 : ParkingSystem} (h : ps1.zones = ps2.zones) :
    allSlots ps1 = allSlots ps2 := by
  unfold allSlots
  rw [h]

theorem findSlot_congr {ps1 ps2 : ParkingSystem} (h : ps1.zones = ps2.zones) (sid : String) :
    findSlot ps1 sid = findSlot ps2 sid := by
  unfold findSlot
  rw [allSlots_congr h]

theorem find?_reqid_self_of_nodup {l : List ParkingRequest} {r : ParkingRequest}
    (hnd : (l.map (·.id)).Nodup) (hmem : r ∈ l) :
    l.find? (fun x => x.id == r.id) = some r := by
  induction l with
  | nil => simp at hmem
  | cons a t ih =>
    rcases List.mem_cons.1 hmem with h | h
    · subst h
      exact List.find?_cons_of_pos _ (by simp)
    · have hne : a.id ≠ r.id := by
        intro hc
        have : a.id ∈ t.map (·.id) := hc ▸ List.mem_map_of_mem _ h
        exact (List.nodup_cons.1 hnd).1 this
      rw [List.find?_cons_of_neg _ (by simpa using hne)]
      exact ih (List.nodup_cons.1 hnd).2 h

theorem holder_unique {ps : ParkingSystem} (h : Inv ps) {r1 r2 : ParkingRequest} {sid : String}
    (h1 : r1 ∈ ps.requests) (h2 : r2 ∈ ps.requests) (ha1 : isActive r1) (ha2 : isActive r2)
    (hs1 : r1.allocatedSlotId = some sid) (hs2 : r2.allocatedSlotId = some sid) : r1 = r2 := by
  rcases h.active_entry r1 h1 ha1 sid hs1 with ⟨e1, hf1, hid1⟩
  rcases h.active_entry r2 h2 ha2 sid hs2 with ⟨e2, hf2, hid2⟩
  have he : e1 = e2 := by
    rw [hf1] at hf2
    exact Option.some_injective _ hf2
  exact eq_of_mem_id h.reqIds h1 h2 (by rw [← hid1, ← hid2, he])

/-- Invariant preservation for an operation that replaces the found
request by an updated record, touching no slot and no log entry
(`occupySlot`, and `cancelRequest` on a `REQUESTED` request). -/
theorem Inv_update_request {ps : ParkingSystem} {req r' : ParkingRequest}
    (h : Inv ps)
    (hfind : ps.requests.find? (fun x => x.id == req.id) = some req)
    (hid : r'.id = req.id)
    (hnotreq : r'.state ≠ .REQUESTED)
    (hactive : isActive r' → isActive req ∧ r'.allocatedSlotId = req.allocatedSlotId ∧
      r'.allocatedZoneId = req.allocatedZoneId) :
    Inv { ps with requests := putRequest ps.requests r' } := by
  have hmemreq : req ∈ ps.requests := List.mem_of_find?_eq_some hfind
  have hfind' : ps.requests.find? (fun x => x.id == r'.id) = some req := by
    rw [hid]; exact hfind
  refine ⟨h.nodup, ?_, ?_, ?_, ?_, h.log_ids, h.log_prev, ?_⟩
  · show ((putRequest ps.requests r').map (·.id)).Nodup
    rw [putRequest_map_id_of_found _ _ _ hfind']
    exact h.reqIds
  · intro r hr hact
    rcases mem_putRequest _ _ _ hr with e | e
    · subst e
      rcases hactive hact with ⟨hreqact, hslots, hzones⟩
      rcases h.active_slot req hmemreq hreqact with ⟨sid, hs1, hs2, s, hfs, hav⟩
      exact ⟨sid, by rw [hslots]; exact hs1, by rw [hzones]; exact hs2, s, hfs, hav⟩
    · rcases h.active_slot r e hact with ⟨sid, hs1, hs2, s, hfs, hav⟩
      exact ⟨sid, hs1, hs2, s, hfs, hav⟩
  · intro r hr hact sid hsid
    rcases mem_putRequest _ _ _ hr with e | e
    · subst e
      rcases hactive hact with ⟨hreqact, hslots, _⟩
      rcases h.active_entry req hmemreq hreqact sid (by rw [← hslots]; exact hsid)
        with ⟨e1, hf1, hid1⟩
      exact ⟨e1, hf1, by rw [hid1, hid]⟩
    · exact h.active_entry r e hact sid hsid
  · intro e he
    rcases h.log_req e he with ⟨r0, hr0m, hr0id, hr0st⟩
    by_cases hcase : r0.id = r'.id
    · have hr0req : r0 = req := eq_of_mem_id h.reqIds hr0m hmemreq (hcase.trans hid)
      refine ⟨r', mem_putRequest_self _ _, ?_, hnotreq⟩
      rw [hid, ← hr0req]
      exact hr0id
    · exact ⟨r0, mem_putRequest_of_ne _ _ _ hr0m hcase, hr0id, hr0st⟩
  · intro r hr hst
    rcases mem_putRequest _ _ _ hr with e | e
    · exact absurd (e ▸ hst) hnotreq
    · exact h.clean r e hst

theorem occupySlot_notfound {ps : ParkingSystem} {rid : String} {now : Nat}
    (h : getRequest ps rid = none) :
    occupySlot ps rid now
      = ({ success := false, message := "Request not found", request := none }, ps) := by
  simp [occupySlot, h]

theorem releaseSlot_notfound {ps : ParkingSystem} {rid : String} {now : Nat}
    (h : getRequest ps rid = none) :
    releaseSlot ps rid now
      = ({ success := false, message := "Request not found", request := none }, ps) := by
  simp [releaseSlot, h]

theorem cancelRequest_notfound {ps : ParkingSystem} {rid : String}
    (h : getRequest ps rid = none) :
    cancelRequest ps rid
      = ({ success := false, message := "Request not found", request := none }, ps) := by
  simp [cancelRequest, h]

theorem Inv_occupy {ps : ParkingSystem} {rid : String} {now : Nat} (h : Inv ps) :
    Inv (occupySlot ps rid now).2 := by
  cases hreq : getRequest ps rid with
  | none => rw [occupySlot_notfound hreq]; exact h
  | some req =>
    cases hcan : canTransition req.state .OCCUPIED with
    | false => rw [occupySlot_invalid hreq hcan]; exact h
    | true =>
      have hstate : req.state = .ALLOCATED := (canTransition_occupied req.state).1 hcan
      have hid : req.id = rid := by simpa using List.find?_some hreq
      rw [occupySlot_success hreq hcan]
      refine Inv_update_request h
        (show ps.requests.find? (fun x => x.id == req.id) = some req by rw [hid]; exact hreq)
        rfl (by simp) ?_
      intro _
      exact ⟨Or.inl hstate, rfl, rfl⟩

/-- Invariant preservation for an operation that frees the found active
request's slot and moves the request to a terminal state
(`releaseSlot`, and `cancelRequest` on an `ALLOCATED` request). -/
theorem Inv_finish_request {ps : ParkingSystem} {req r' : ParkingRequest} {sid : String}
    (h : Inv ps)
    (hfind : ps.requests.find? (fun x => x.id == req.id) = some req)
    (hid : r'.id = req.id)
    (hnotreq : r'.state ≠ .REQUESTED)
    (hnotact : ¬ isActive r')
    (hact : isActive req)
    (hsid : req.allocatedSlotId = some sid) :
    Inv { setSlotAvailability ps sid true with
          requests := putRequest (setSlotAvailability ps sid true).requests r' } := by
  have hmemreq : req ∈ ps.requests := List.mem_of_find?_eq_some hfind
  have hcompo := setSlotAvailability_components ps sid true
  have hfind' : ps.requests.find? (fun x => x.id == r'.id) = some req := by
    rw [hid]; exact hfind
  have hner : req ≠ r' := fun hc => hnotact (hc ▸ hact)
  rw [hcompo.1]
  refine ⟨?_, ?_, ?_, ?_, ?_, ?_, ?_, ?_⟩
  · show ((allSlots (setSlotAvailability ps sid true)).map (·.id)).Nodup
    rw [allSlotIds_setSlotAvailability]
    exact h.nodup
  · show ((putRequest ps.requests r').map (·.id)).Nodup
    rw [putRequest_map_id_of_found _ _ _ hfind']
    exact h.reqIds
  · intro r hr hact2
    rcases mem_putRequest _ _ _ hr with e | e
    · exact absurd (e ▸ hact2) hnotact
    · by_cases hcase : r.id = req.id
      · have hrq : r = req := eq_of_mem_id h.reqIds e hmemreq hcase
        exact absurd (hrq ▸ hr)
          (not_mem_putRequest_replaced h.reqIds hmemreq hid.symm hner)
      · rcases h.active_slot r e hact2 with ⟨sid', hs1, hs2, s', hfs', hav'⟩
        have hssid : sid' ≠ sid := by
          intro hc
          subst hc
          exact hcase (congrArg (fun x => x.id) (holder_unique h e hmemreq hact2 hact hs1 hsid))
        exact ⟨sid', hs1, hs2, s',
          (findSlot_setSlotAvailability_other hssid).trans hfs', hav'⟩
  · intro r hr hact2 sid2 hsid2
    rcases mem_putRequest _ _ _ hr with e | e
    · exact absurd (e ▸ hact2) hnotact
    · by_cases hcase : r.id = req.id
      · have hrq : r = req := eq_of_mem_id h.reqIds e hmemreq hcase
        exact absurd (hrq ▸ hr)
          (not_mem_putRequest_replaced h.reqIds hmemreq hid.symm hner)
      · rcases h.active_entry r e hact2 sid2 hsid2 with ⟨e1, hf1, hid1⟩
        refine ⟨e1, ?_, hid1⟩
        show (setSlotAvailability ps sid true).operationHistory.find? _ = some e1
        rw [hcompo.2.1]
        exact hf1
  · intro e he
    have he' : e ∈ (setSlotAvailability ps sid true).operationHistory := he
    rw [hcompo.2.1] at he'
    rcases h.log_req e he' with ⟨r0, hr0m, hr0id, hr0st⟩
    by_cases hcase : r0.id = r'.id
    · have hr0req : r0 = req := eq_of_mem_id h.reqIds hr0m hmemreq (hcase.trans hid)
      refine ⟨r', mem_putRequest_self _ _, ?_, hnotreq⟩
      rw [hid, ← hr0req]
      exact hr0id
    · exact ⟨r0, mem_putRequest_of_ne _ _ _ hr0m hcase, hr0id, hr0st⟩
  · show ((setSlotAvailability ps sid true).operationHistory.map (·.requestId)).Nodup
    rw [hcompo.2.1]
    exact h.log_ids
  · intro e he
    have he' : e ∈ (setSlotAvailability ps sid true).operationHistory := he
    rw [hcompo.2.1] at he'
    exact h.log_prev e he'
  · intro r hr hst
    rcases mem_putRequest _ _ _ hr with e | e
    · exact absurd (e ▸ hst) hnotreq
    · exact h.clean r e hst

theorem Inv_release {ps : ParkingSystem} {rid : String} {now : Nat} (h : Inv ps) :
    Inv (releaseSlot ps rid now).2 := by
  cases hreq : getRequest ps rid with
  | none => rw [releaseSlot_notfound hreq]; exact h
  | some req =>
    cases hcan : canTransition req.state .RELEASED with
    | false => rw [releaseSlot_invalid hreq hcan]; exact h
    | true =>
      have hstate : req.state = .OCCUPIED := (canTransition_released req.state).1 hcan
      have hid : req.id = rid := by simpa using List.find?_some hreq
      have hmem : req ∈ ps.requests := List.mem_of_find?_eq_some hreq
      have hact : isActive req := Or.inr hstate
      rcases h.active_slot req hmem hact with ⟨sid, hsid, _, _⟩
      rw [releaseSlot_success hreq hcan]
      simp only [hsid]
      exact Inv_finish_request h
        (show ps.requests.find? (fun x => x.id == req.id) = some req by rw [hid]; exact hreq)
        rfl (by simp) (by simp [isActive]) hact hsid

theorem Inv_cancel {ps : ParkingSystem} {rid : String} (h : Inv ps) :
    Inv (cancelRequest ps rid).2 := by
  cases hreq : getRequest ps rid with
  | none => rw [cancelRequest_notfound hreq]; exact h
  | some req =>
    cases hcan : canTransition req.state .CANCELLED with
    | false => rw [cancelRequest_invalid hreq hcan]; exact h
    | true =>
      have hid : req.id = rid := by simpa using List.find?_some hreq
      have hmem : req ∈ ps.requests := List.mem_of_find?_eq_some hreq
      rcases (canTransition_cancelled req.state).1 hcan with hstate | hstate
      · obtain ⟨c1, _, _, _, _⟩ := h.clean req hmem hstate
        rw [cancelRequest_success hreq hcan]
        simp only [c1]
        exact Inv_update_request h
          (show ps.requests.find? (fun x => x.id == req.id) = some req by rw [hid]; exact hreq)
          rfl (by simp) (fun hact2 => absurd hact2 (by simp [isActive]))
      · have hact : isActive req := Or.inl hstate
        rcases h.active_slot req hmem hact with ⟨sid, hsid, _, _⟩
        rw [cancelRequest_success hreq hcan]
        simp only [hsid]
        exact Inv_finish_request h
          (show ps.requests.find? (fun x => x.id == req.id) = some req by rw [hid]; exact hreq)
          rfl (by simp) (by simp [isActive]) hact hsid

theorem Inv_create {ps : ParkingSystem} {id vehicleId requestedZoneId : String} {now : Nat}
    (h : Inv ps) (hfresh : getRequest ps id = none) :
    Inv (createRequest ps id vehicleId requestedZoneId now).2 := by
  have hput : putRequest ps.requests
      { id := id, vehicleId := vehicleId, requestedZoneId := requestedZoneId,
        allocatedSlotId := none, allocatedZoneId := none, state := .REQUESTED,
        requestTime := now, allocationTime := none, occupiedTime := none,
        releaseTime := none, isCrossZone := false, crossZonePenalty := 0 }
      = ps.requests ++
        [{ id := id, vehicleId := vehicleId, requestedZoneId := requestedZoneId,
           allocatedSlotId := none, allocatedZoneId := none, state := .REQUESTED,
           requestTime := now, allocationTime := none, occupiedTime := none,
           releaseTime := none, isCrossZone := false, crossZonePenalty := 0 }] :=
    putRequest_of_not_found _ _ hfresh
  have hreqs : (createRequest ps id vehicleId requestedZoneId now).2.requests
      = ps.requests ++
        [{ id := id, vehicleId := vehicleId, requestedZoneId := requestedZoneId,
           allocatedSlotId := none, allocatedZoneId := none, state := .REQUESTED,
           requestTime := now, allocationTime := none, occupiedTime := none,
           releaseTime := none, isCrossZone := false, crossZonePenalty := 0 }] := hput
  have hnotmem : id ∉ ps.requests.map (·.id) := id_not_mem_of_find_none hfresh
  refine ⟨h.nodup, ?_, ?_, ?_, ?_, h.log_ids, h.log_prev, ?_⟩
  · show ((createRequest ps id vehicleId requestedZoneId now).2.requests.map (·.id)).Nodup
    rw [hreqs, List.map_append]
    refine List.Nodup.append h.reqIds (by simp) ?_
    intro a ha hb
    simp at hb
    exact hnotmem (hb ▸ ha)
  · intro r hr hact
    rw [hreqs] at hr
    rcases List.mem_append.1 hr with e | e
    · exact h.active_slot r e hact
    · rw [List.mem_singleton] at e
      subst e
      rcases hact with ha | ha <;> simp at ha
  · intro r hr hact sid hsid
    rw [hreqs] at hr
    rcases List.mem_append.1 hr with e | e
    · exact h.active_entry r e hact sid hsid
    · rw [List.mem_singleton] at e
      subst e
      rcases hact with ha | ha <;> simp at ha
  · intro e he
    rcases h.log_req e he with ⟨r0, hr0m, hr0id, hr0st⟩
    refine ⟨r0, ?_, hr0id, hr0st⟩
    rw [hreqs]
    exact List.mem_append_left _ hr0m
  · intro r hr hst
    rw [hreqs] at hr
    rcases List.mem_append.1 hr with e | e
    · exact h.clean r e hst
    · rw [List.mem_singleton] at e
      subst e
      exact ⟨rfl, rfl, rfl, rfl, rfl⟩

theorem Inv_alloc {ps : ParkingSystem} {rid oid : String} {now : Nat} (h : Inv ps) :
    Inv (allocateSlot ps rid oid now).2 := by
  cases hreq : getRequest ps rid with
  | none => rw [allocateSlot_notfound hreq]; exact h
  | some req =>
    cases hcan : canTransition req.state .ALLOCATED with
    | false => rw [allocateSlot_invalid hreq hcan]; exact h
    | true =>
      cases hsel : selectTarget ps req with
      | none => rw [allocateSlot_noslots hreq hcan hsel]; exact h
      | some x =>
        obtain ⟨zid, slots, cross⟩ := x
        cases slots with
        | nil => exact absurd rfl (selectTarget_some_props hsel).2
        | cons s rest =>
          rcases @allocateSlot_success_eq ps rid oid now req zid s rest cross hreq hcan hsel
            with ⟨msg, heq⟩
          have havail : getAvailableSlotsInZone ps zid = s :: rest :=
            (selectTarget_some_props hsel).1
          have hsmem : s ∈ allSlots ps := (mem_avail_props (by rw [havail]; simp)).1
          have hsavail : s.isAvailable = true := (mem_avail_props (by rw [havail]; simp)).2
          have hfs : findSlot ps s.id = some s := findSlot_self_of_nodup h.nodup hsmem
          have hid : req.id = rid := by simpa using List.find?_some hreq
          have hstate : req.state = .REQUESTED := (canTransition_allocated req.state).1 hcan
          have hmemreq : req ∈ ps.requests := List.mem_of_find?_eq_some hreq
          rw [heq]
          set e0 : AllocationOperation := { id := oid, requestId := req.id, slotId := s.id, previousSlotState := s.isAvailable, previousRequestState := req.state, timestamp := now } with he0
          set ps1 : ParkingSystem := { ps with operationHistory := e0 :: ps.operationHistory } with hps1
          set nr : ParkingRequest := { req with allocatedSlotId := some s.id, allocatedZoneId := some s.zoneId, state := .ALLOCATED, allocationTime := some now, isCrossZone := cross, crossZonePenalty := if cross then ps.crossZonePenalty else 0 } with hnr
          have hmk : markFirstAvailableInZone ps1 zid = setSlotAvailability ps1 s.id false :=
            mark_eq_setSlot h.nodup havail
          rw [hmk]
          have hfs1 : findSlot ps1 s.id = some s := by rw [hps1]; exact hfs
          have hAlog : (setSlotAvailability ps1 s.id false).operationHistory
              = e0 :: ps.operationHistory := by
            rw [(setSlotAvailability_components ps1 s.id false).2.1, hps1]
          have hnrid : nr.id = req.id := by rw [hnr]
          have hfindnr : ps.requests.find? (fun x => x.id == nr.id) = some req := by
            rw [hnrid, hid]
            exact hreq
          have hnoact : ∀ r'' ∈ ps.requests, isActive r'' →
              ∀ sid'', r''.allocatedSlotId = some sid'' → sid'' ≠ s.id := by
            intro r'' hm ha sid'' hsid'' hcontra
            rcases h.active_slot r'' hm ha with ⟨sid2, hs2, _, s2, hfs2, hav2⟩
            rw [hsid''] at hs2
            have hsid2 : sid'' = sid2 := Option.some_injective _ hs2
            rw [← hsid2, hcontra] at hfs2
            rw [hfs] at hfs2
            have : s = s2 := Option.some_injective _ hfs2
            rw [← this] at hav2
            rw [hsavail] at hav2
            exact Bool.noConfusion hav2
          have hnolog : ∀ e ∈ ps.operationHistory, e.requestId ≠ req.id := by
            intro e he hcontra
            rcases h.log_req e he with ⟨r0, hr0m, hr0id, hr0st⟩
            have hr0req : r0 = req := eq_of_mem_id h.reqIds hr0m hmemreq (hr0id.trans hcontra)
            exact hr0st (by rw [hr0req, hstate])
          refine ⟨?_, ?_, ?_, ?_, ?_, ?_, ?_, ?_⟩
          · show ((allSlots (setSlotAvailability ps1 s.id false)).map (·.id)).Nodup
            rw [allSlotIds_setSlotAvailability]
            exact h.nodup
          · show ((putRequest ps.requests nr).map (·.id)).Nodup
            rw [putRequest_map_id_of_found _ _ _ hfindnr]
            exact h.reqIds
          · intro r hr hact
            rcases mem_putRequest _ _ _ hr with e | e
            · subst e
              refine ⟨s.id, by rw [hnr], by rw [hnr]; simp,
                { s with isAvailable := false }, ?_, rfl⟩
              exact findSlot_setSlotAvailability_same hfs1
            · rcases h.active_slot r e hact with ⟨sid', hs1, hs2, s', hfs', hav'⟩
              have hssid : sid' ≠ s.id := hnoact r e hact sid' hs1
              have hfs1' : findSlot ps1 sid' = some s' := by rw [hps1]; exact hfs'
              exact ⟨sid', hs1, hs2, s',
                (findSlot_setSlotAvailability_other hssid).trans hfs1', hav'⟩
          · intro r hr hact sid2 hsid2
            rcases mem_putRequest _ _ _ hr with e | e
            · subst e
              simp only [hnr] at hsid2
              have hs2id : s.id = sid2 := by simpa using hsid2
              subst hs2id
              refine ⟨e0, ?_, by rw [he0, hnr]⟩
              show (setSlotAvailability ps1 s.id false).operationHistory.find? _ = some e0
              rw [hAlog]
              exact List.find?_cons_of_pos _ (by simp [he0])
            · have hssid : sid2 ≠ s.id := hnoact r e hact sid2 hsid2
              rcases h.active_entry r e hact sid2 hsid2 with ⟨e', hf', hid'⟩
              refine ⟨e', ?_, hid'⟩
              show (setSlotAvailability ps1 s.id false).operationHistory.find? _ = some e'
              rw [hAlog]
              rw [List.find?_cons_of_neg _ (by simp [he0]; exact Ne.symm hssid)]
              exact hf'
          · intro e he
            have he' : e ∈ (setSlotAvailability ps1 s.id false).operationHistory := he
            rw [hAlog] at he'
            rcases List.mem_cons.1 he' with hcase | hcase
            · refine ⟨nr, mem_putRequest_self _ _, ?_, ?_⟩
              · rw [hcase, hnrid, he0]
              · rw [hnr]; simp
            · rcases h.log_req e hcase with ⟨r0, hr0m, hr0id, hr0st⟩
              have hne2 : r0.id ≠ nr.id := fun hc =>
                hnolog e hcase (by rw [← hr0id, hc, hnrid])
              exact ⟨r0, mem_putRequest_of_ne _ _ _ hr0m hne2, hr0id, hr0st⟩
          · show ((setSlotAvailability ps1 s.id false).operationHistory.map (·.requestId)).Nodup
            rw [hAlog, List.map_cons, List.nodup_cons]
            constructor
            · intro hc
              rcases List.mem_map.1 hc with ⟨e', he', heq'⟩
              exact hnolog e' he' (by rw [heq', he0])
            · exact h.log_ids
          · intro e he
            have he' : e ∈ (setSlotAvailability ps1 s.id false).operationHistory := he
            rw [hAlog] at he'
            rcases List.mem_cons.1 he' with hcase | hcase
            · subst hcase
              exact ⟨by rw [he0]; exact hstate, by rw [he0]; exact hsavail⟩
            · exact h.log_prev e hcase
          · intro r hr hst
            rcases mem_putRequest _ _ _ hr with e | e
            · exact absurd (e ▸ hst) (by rw [hnr]; simp)
            · exact h.clean r e hst

theorem Inv_init {ps : ParkingSystem} (hnd : SlotIdsNodup ps) (hreq : ps.requests = [])
    (hlog : ps.operationHistory = []) : Inv ps := by
  refine ⟨hnd, ?_, ?_, ?_, ?_, ?_, ?_, ?_⟩
  · rw [hreq]; simp
  · intro r hr; rw [hreq] at hr; simp at hr
  · intro r hr; rw [hreq] at hr; simp at hr
  · intro e he; rw [hlog] at he; simp at he
  · rw [hlog]; simp
  · intro e he; rw [hlog] at he; simp at he
  · intro r hr; rw [hreq] at hr; simp at hr

theorem popOne_inv {ps : ParkingSystem} (h : Inv ps) : Inv (popOne ps) := by
  cases hlog : ps.operationHistory with
  | nil => rw [popOne_empty hlog]; exact h
  | cons e rest =>
    have heme : e ∈ ps.operationHistory := by rw [hlog]; exact List.mem_cons_self _ _
    rcases h.log_prev e heme with ⟨hprev, hpslot⟩
    rcases h.log_req e heme with ⟨rX, hrXm, hrXid, hrXst⟩
    set ps0 : ParkingSystem := { ps with operationHistory := rest } with hps0
    have hget : getRequest (setSlotAvailability ps0 e.slotId e.previousSlotState) e.requestId
        = some rX := by
      rw [getRequest_setSlotAvailability]
      show ps.requests.find? (fun x => x.id == e.requestId) = some rX
      rw [← hrXid]
      exact find?_reqid_self_of_nodup h.reqIds hrXm
    set rX' : ParkingRequest := { rX with
      state := RequestState.REQUESTED
      allocatedSlotId := none
      allocatedZoneId := none
      allocationTime := none
      isCrossZone := false
      crossZonePenalty := 0 } with hrX'
    have hundo : undoOne ps0 e
        = { setSlotAvailability ps0 e.slotId e.previousSlotState with
            requests := putRequest
              (setSlotAvailability ps0 e.slotId e.previousSlotState).requests rX' } := by
      simp only [undoOne, hget]
      rw [if_pos hprev, hprev]
    have hAreq : (setSlotAvailability ps0 e.slotId e.previousSlotState).requests
        = ps.requests :=
      (setSlotAvailability_components ps0 e.slotId e.previousSlotState).1
    have hAlog : (setSlotAvailability ps0 e.slotId e.previousSlotState).operationHistory
        = rest :=
      (setSlotAvailability_components ps0 e.slotId e.previousSlotState).2.1
    rw [popOne_cons hlog, ← hps0, hundo, hAreq]
    have hXfind : ps.requests.find? (fun x => x.id == rX'.id) = some rX := by
      show ps.requests.find? (fun x => x.id == rX.id) = some rX
      exact find?_reqid_self_of_nodup h.reqIds hrXm
    have hneX : rX ≠ rX' := fun hc => hrXst (by rw [hc, hrX'])
    have hnomemX : rX ∉ putRequest ps.requests rX' :=
      not_mem_putRequest_replaced h.reqIds hrXm rfl hneX
    have hrestmem : ∀ e2 ∈ rest, e2 ∈ ps.operationHistory := by
      intro e2 he2
      rw [hlog]
      exact List.mem_cons_of_mem _ he2
    have hheadnotin : e.requestId ∉ rest.map (·.requestId) := by
      have hx := h.log_ids
      rw [hlog, List.map_cons, List.nodup_cons] at hx
      exact hx.1
    have hlogidsrest : (rest.map (·.requestId)).Nodup := by
      have hx := h.log_ids
      rw [hlog, List.map_cons, List.nodup_cons] at hx
      exact hx.2
    have hsurv : ∀ r, r ∈ putRequest ps.requests rX' → isActive r →
        r ∈ ps.requests ∧ r ≠ rX := by
      intro r hr hact
      rcases mem_putRequest _ _ _ hr with hc | hc
      · exfalso
        rw [hc] at hact
        rcases hact with ha | ha <;> simp [hrX'] at ha
      · refine ⟨hc, ?_⟩
        intro hceq
        exact hnomemX (hceq ▸ hr)
    have hsid_ne : ∀ r, r ∈ ps.requests → r ≠ rX → isActive r →
        ∀ sid, r.allocatedSlotId = some sid → sid ≠ e.slotId := by
      intro r hm hne hact sid hsid hceq
      rcases h.active_entry r hm hact sid hsid with ⟨e2, hf2, hid2⟩
      rw [hlog, List.find?_cons_of_pos _ (by simp [hceq])] at hf2
      have he2 : e = e2 := Option.some_injective _ hf2
      have hre : e.requestId = r.id := by rw [he2]; exact hid2
      have hrx : rX = r := eq_of_mem_id h.reqIds hrXm hm (hrXid.trans hre)
      exact hne hrx.symm
    refine ⟨?_, ?_, ?_, ?_, ?_, ?_, ?_, ?_⟩
    · show ((allSlots (setSlotAvailability ps0 e.slotId e.previousSlotState)).map (·.id)).Nodup
      rw [allSlotIds_setSlotAvailability]
      exact h.nodup
    · show ((putRequest ps.requests rX').map (·.id)).Nodup
      rw [putRequest_map_id_of_found _ _ _ hXfind]
      exact h.reqIds
    · intro r hr hact
      have hr' : r ∈ putRequest ps.requests rX' := hr
      rcases hsurv r hr' hact with ⟨hm, hne⟩
      rcases h.active_slot r hm hact with ⟨sid, hs1, hs2, s, hfs, hav⟩
      have hsne : sid ≠ e.slotId := hsid_ne r hm hne hact sid hs1
      refine ⟨sid, hs1, hs2, s, ?_, hav⟩
      show findSlot (setSlotAvailability ps0 e.slotId e.previousSlotState) sid = some s
      rw [findSlot_setSlotAvailability_other hsne]
      exact hfs
    · intro r hr hact sid hsid
      have hr' : r ∈ putRequest ps.requests rX' := hr
      rcases hsurv r hr' hact with ⟨hm, hne⟩
      have hsne : sid ≠ e.slotId := hsid_ne r hm hne hact sid hsid
      rcases h.active_entry r hm hact sid hsid with ⟨e2, hf2, hid2⟩
      rw [hlog, List.find?_cons_of_neg _ (by simp; exact fun hc => hsne hc.symm)] at hf2
      refine ⟨e2, ?_, hid2⟩
      show (setSlotAvailability ps0 e.slotId e.previousSlotState).operationHistory.find?
        (fun o => o.slotId == sid) = some e2
      rw [hAlog]
      exact hf2
    · intro e2 he2
      have he2' : e2 ∈ (setSlotAvailability ps0 e.slotId e.previousSlotState).operationHistory :=
        he2
      rw [hAlog] at he2'
      rcases h.log_req e2 (hrestmem e2 he2') with ⟨r0, hr0m, hr0id, hr0st⟩
      have hr0ne : r0.id ≠ rX'.id := by
        show r0.id ≠ rX.id
        intro hc
        have hereq : e2.requestId = e.requestId := by rw [← hr0id, hc, hrXid]
        have hmm : e2.requestId ∈ rest.map (·.requestId) := List.mem_map_of_mem _ he2'
        rw [hereq] at hmm
        exact hheadnotin hmm
      exact ⟨r0, mem_putRequest_of_ne _ _ _ hr0m hr0ne, hr0id, hr0st⟩
    · show ((setSlotAvailability ps0 e.slotId e.previousSlotState).operationHistory.map
        (·.requestId)).Nodup
      rw [hAlog]
      exact hlogidsrest
    · intro e2 he2
      have he2' : e2 ∈ (setSlotAvailability ps0 e.slotId e.previousSlotState).operationHistory :=
        he2
      rw [hAlog] at he2'
      exact h.log_prev e2 (hrestmem e2 he2')
    · intro r hr hst
      have hr' : r ∈ putRequest ps.requests rX' := hr
      rcases mem_putRequest _ _ _ hr' with hc | hc
      · subst hc
        exact ⟨rfl, rfl, rfl, rfl, rfl⟩
      · exact h.clean r hc hst

theorem Inv_rollback {ps : ParkingSystem} {k : Nat} (h : Inv ps) : Inv (rollback ps k).2 := by
  rw [(rollback_eq ps k).2.2]
  induction k with
  | zero => simpa using h
  | succ n ih =>
    rw [Function.iterate_succ_apply']
    exact popOne_inv ih

/-- States reachable from a loaded topology (no requests, empty log,
globally unique slot ids — the store's documented uniqueness invariant)
by any sequence of façade operations.  `createRequest` is invoked with a
fresh id, as produced by the injected id generator. -/
inductive Reachable : ParkingSystem → Prop where
  | init (ps : ParkingSystem) (hnd : SlotIdsNodup ps) (hreq : ps.requests = [])
      (hlog : ps.operationHistory = []) : Reachable ps
  | create (ps : ParkingSystem) (id vehicleId requestedZoneId : String) (now : Nat)
      (h : Reachable ps) (hfresh : getRequest ps id = none) :
      Reachable (createRequest ps id vehicleId requestedZoneId now).2
  | alloc (ps : ParkingSystem) (rid oid : String) (now : Nat) (h : Reachable ps) :
      Reachable (allocateSlot ps rid oid now).2
  | occupy (ps : ParkingSystem) (rid : String) (now : Nat) (h : Reachable ps) :
      Reachable (occupySlot ps rid now).2
  | release (ps : ParkingSystem) (rid : String) (now : Nat) (h : Reachable ps) :
      Reachable (releaseSlot ps rid now).2
  | cancel (ps : ParkingSystem) (rid : String) (h : Reachable ps) :
      Reachable (cancelRequest ps rid).2
  | rollbackOp (ps : ParkingSystem) (k : Nat) (h : Reachable ps) :
      Reachable (rollback ps k).2

theorem Inv_of_Reachable {ps : ParkingSystem} (h : Reachable ps) : Inv ps := by
  induction h with
  | init ps hnd hreq hlog => exact Inv_init hnd hreq hlog
  | create ps id vehicleId requestedZoneId now h hfresh ih => exact Inv_create ih hfresh
  | alloc ps rid oid now h ih => exact Inv_alloc ih
  | occupy ps rid now h ih => exact Inv_occupy ih
  | release ps rid now h ih => exact Inv_release ih
  | cancel ps rid h ih => exact Inv_cancel ih
  | rollbackOp ps k h ih => exact Inv_rollback ih

/-- A topology-only witness system: zones loaded, no requests, empty
log. -/
def wSys0 : ParkingSystem :=
  { zones := [wZoneA, wZoneB], vehicles := [], requests := [], operationHistory := [],
    pendingRequests := [], crossZonePenalty := 10 }

/-- A reachable witness state: create request `r1` for `zone-a`, then
allocate it. -/
def wSysC3 : ParkingSystem :=
  (allocateSlot (createRequest wSys0 "r1" "v1" "zone-a" 0).2 "r1" "op-1" 5).2

/-- C3: after every sequence of façade operations (`createRequest` with
fresh ids, `allocateSlot`, `occupySlot`, `releaseSlot`, `cancelRequest`,
`rollback`) starting from a loaded topology (unique slot ids, no
requests, empty history), every request in state `ALLOCATED` or
`OCCUPIED` has non-null `allocatedSlotId` and `allocatedZoneId` and the
referenced slot has `isAvailable = false`, and no two requests in state
`ALLOCATED` or `OCCUPIED` reference the same slot simultaneously. -/
theorem C3_invariant {ps : ParkingSystem} (h : Reachable ps) :
    (∀ r ∈ ps.requests, (r.state = .ALLOCATED ∨ r.state = .OCCUPIED) →
      r.allocatedSlotId ≠ none ∧ r.allocatedZoneId ≠ none ∧
      ∀ sid, r.allocatedSlotId = some sid →
        ∃ s, findSlot ps sid = some s ∧ s.isAvailable = false) ∧
    (∀ r1 ∈ ps.requests, ∀ r2 ∈ ps.requests,
      (r1.state = .ALLOCATED ∨ r1.state = .OCCUPIED) →
      (r2.state = .ALLOCATED ∨ r2.state = .OCCUPIED) →
      ∀ sid, r1.allocatedSlotId = some sid → r2.allocatedSlotId = some sid → r1 = r2) := by
  have hinv := Inv_of_Reachable h
  constructor
  · intro r hr hact
    rcases hinv.active_slot r hr hact with ⟨sid, hs1, hs2, s, hfs, hav⟩
    refine ⟨by rw [hs1]; simp, hs2, ?_⟩
    intro sid2 hsid2
    rw [hs1] at hsid2
    have hse : sid = sid2 := Option.some_injective _ hsid2
    exact ⟨s, hse ▸ hfs, hav⟩
  · intro r1 h1 r2 h2 ha1 ha2 sid hs1 hs2
    exact holder_unique hinv h1 h2 ha1 ha2 hs1 hs2

/-- C3 witness: the invariant holds at the concrete reachable state
`wSysC3` (create then allocate from the loaded topology `wSys0`). -/
theorem C3_witness :
    (∀ r ∈ wSysC3.requests, (r.state = .ALLOCATED ∨ r.state = .OCCUPIED) →
      r.allocatedSlotId ≠ none ∧ r.allocatedZoneId ≠ none ∧
      ∀ sid, r.allocatedSlotId = some sid →
        ∃ s, findSlot wSysC3 sid = some s ∧ s.isAvailable = false) ∧
    (∀ r1 ∈ wSysC3.requests, ∀ r2 ∈ wSysC3.requests,
      (r1.state = .ALLOCATED ∨ r1.state = .OCCUPIED) →
      (r2.state = .ALLOCATED ∨ r2.state = .OCCUPIED) →
      ∀ sid, r1.allocatedSlotId = some sid → r2.allocatedSlotId = some sid → r1 = r2) :=
  C3_invariant
    (Reachable.alloc _ "r1" "op-1" 5
      (Reachable.create wSys0 "r1" "v1" "zone-a" 0
        (Reachable.init wSys0 (by decide) rfl rfl) (by decide)))

end Parking
